import Mathlib

/-!
Verification of the polling-cache-refresh subsystem of the dashboard backend.

Each controller/service of the repository is embedded in its own namespace:

* StatusController  — controllers/statusController.js
* CacheSvc          — services/cacheService.js
* RankingController — controllers/rankingController.js
* EmpresaController — controllers/empresaController.js
* FotoService       — services/fotoService.js
* ArgusService      — services/argusService.js

External effects (SQL queries, HTTP calls to the Argus API, the filesystem)
are passed in as explicit oracle arguments; timestamps are explicit `Nat`
arguments replacing `Date.now()`.  JavaScript `Map` objects are embedded as
functions `String → Option α` (per-key lookup), and the single-threaded
event-loop concurrency is embedded as explicit interleaving at `await`
points: the synchronous section of each async function between two awaits
runs atomically.
-/

/-- Embeds `String.prototype.toLowerCase()` character-wise (the column names
and candidates it is applied to are ASCII). -/
def toLowerStr (s : String) : String := String.mk (s.data.map Char.toLower)

/-- Embeds an HTTP response sent by an Express handler: status code and
JSON body. -/
structure HResp (β : Type) where
  status : Nat
  body : β
deriving DecidableEq

namespace StatusController

/-- Embeds `findFirst(colsSet, candidates)` (statusController.js lines 71-77):
walks the candidate list in order and returns the first candidate whose
lowercased form is in the column set, else null.  The JS `Set` of lowercase
column names is embedded as a `List String` queried with `contains`. -/
def findFirst (colsSet : List String) (candidates : List String) : Option String :=
  match candidates with
  | [] => none
  | c :: rest => if colsSet.contains (toLowerStr c) then some c else findFirst colsSet rest

/-- Embeds one row of the GET payload built at lines 338-346: the normalized
operator record. -/
structure Operador where
  nome : String
  equipe : String
  descricaoStatus : String
  tempoStatus : Int
  ramal : Option String
  usuario_id : Option String
  updated_at : Option String
deriving DecidableEq

/-- Embeds the GET response payload (lines 412-419).  The error payload built
at line 432 omits the keys horario_atual and total, hence those two fields
are optional. -/
structure StatusPayload where
  operadores : List Operador
  horario_atual : Option Nat
  total : Option Nat
  totalActive : Nat
  logados : Nat
  logados_total : Nat
deriving DecidableEq

/-- Embeds the module-level mutable `state` of statusController.js
(lines 33-42).  `state.cache = { data, ts }` becomes the two fields
`cacheData`/`cacheTs` (data null embedded as `none`); `_colsCache` and
`schedulerId` are not needed by any claim and are omitted. -/
structure StatusSt where
  cacheData : Option StatusPayload
  cacheTs : Nat
  isFetching : Bool
  failCount : Nat
  nextAllowedAt : Nat
  lastError : Option String
  argusAuthFailed : Bool
deriving DecidableEq

/-- Embeds the initial value of `state` (lines 33-42). -/
def statusInit : StatusSt :=
  { cacheData := none, cacheTs := 0, isFetching := false, failCount := 0
    nextAllowedAt := 0, lastError := none, argusAuthFailed := false }

/-- Embeds `resetBackoff()` (lines 602-605). -/
def resetBackoff (s : StatusSt) : StatusSt :=
  { s with failCount := 0, nextAllowedAt := 0 }

/-- Embeds `increaseBackoff()` (lines 607-612): `failCount` is bumped and
capped at 6, `delaySec = min(15 * 2^(failCount - 1), 300)` is computed from
the updated count, and `nextAllowedAt = now() + ms(delaySec)` with
`ms(s) = s * 1000`. -/
def increaseBackoff (s : StatusSt) (t : Nat) : StatusSt :=
  let fc := min (s.failCount + 1) 6
  let delaySec := min (15 * 2 ^ (fc - 1)) 300
  { s with failCount := fc, nextAllowedAt := t + delaySec * 1000 }

end StatusController

namespace CacheSvc

/-- Embeds a stored cache slot `{ value, expiresAt }` (cacheService.js
line 40). -/
structure CacheEntry (α : Type) where
  value : α
  expiresAt : Nat

/-- Embeds the metrics counters of cacheService.js (lines 10-17); `size` and
`lastCleanup` are derivable/diagnostic and omitted. -/
structure Metrics where
  hits : Nat
  misses : Nat
  sets : Nat
  deletes : Nat
deriving DecidableEq

/-- Embeds the `CacheService` class state (lines 6-21); the JS `Map` is
embedded as its lookup function. -/
structure CacheService (α : Type) where
  cache : String → Option (CacheEntry α)
  defaultTTL : Nat
  metrics : Metrics

/-- Embeds a freshly constructed `CacheService` (lines 7-21). -/
def CacheService.empty (α : Type) (defaultTTL : Nat) : CacheService α :=
  { cache := fun _ => none, defaultTTL := defaultTTL
    metrics := { hits := 0, misses := 0, sets := 0, deletes := 0 } }

/-- Embeds `CacheService.set(key, value, ttl)` at time `t` (lines 37-44):
stores `{ value, expiresAt: Date.now() + ttl }` under the key. -/
def CacheService.set {α : Type} (c : CacheService α) (k : String) (v : α)
    (ttl : Nat) (t : Nat) : CacheService α :=
  { c with
    cache := fun k2 => if k2 = k then some { value := v, expiresAt := t + ttl } else c.cache k2
    metrics := { c.metrics with sets := c.metrics.sets + 1 } }

/-- Embeds `CacheService.get(key)` at time `t` (lines 50-65): absent key
counts a miss and returns null; `Date.now() > entry.expiresAt` deletes the
entry, counts a miss and returns null; otherwise counts a hit and returns
the stored value. -/
def CacheService.get {α : Type} (c : CacheService α) (k : String) (t : Nat) :
    Option α × CacheService α :=
  match c.cache k with
  | none => (none, { c with metrics := { c.metrics with misses := c.metrics.misses + 1 } })
  | some entry =>
    if t > entry.expiresAt then
      (none, { c with
        cache := fun k2 => if k2 = k then none else c.cache k2
        metrics := { c.metrics with misses := c.metrics.misses + 1 } })
    else
      (some entry.value, { c with metrics := { c.metrics with hits := c.metrics.hits + 1 } })

end CacheSvc

namespace StatusController

theorem findFirst_cons (S : List String) (c : String) (rest : List String) :
    findFirst S (c :: rest)
      = if S.contains (toLowerStr c) then some c else findFirst S rest := rfl

theorem contains_true_iff (l : List String) (a : String) :
    l.contains a = true ↔ a ∈ l := by
  simp

theorem findFirst_eq_none_iff (S C : List String) :
    findFirst S C = none ↔ ∀ c ∈ C, toLowerStr c ∉ S := by
  induction C with
  | nil => simp [findFirst]
  | cons c rest ih =>
    rw [findFirst_cons]
    split
    next h =>
      have hmem : toLowerStr c ∈ S := (contains_true_iff S _).mp h
      constructor
      · intro h2
        simp at h2
      · intro hall
        exact absurd hmem (hall c (List.mem_cons_self c rest))
    next h =>
      have hmem : toLowerStr c ∉ S := fun hm => h ((contains_true_iff S _).mpr hm)
      rw [ih]
      constructor
      · intro hall d hd
        rcases List.mem_cons.mp hd with rfl | hd2
        · exact hmem
        · exact hall d hd2
      · intro hall d hd
        exact hall d (List.mem_cons.mpr (Or.inr hd))

theorem findFirst_eq_some (S C : List String) (r : String) (h : findFirst S C = some r) :
    ∃ pre suf, C = pre ++ r :: suf ∧ toLowerStr r ∈ S
      ∧ ∀ c ∈ pre, toLowerStr c ∉ S := by
  induction C with
  | nil => simp [findFirst] at h
  | cons c rest ih =>
    rw [findFirst_cons] at h
    revert h
    split
    next hc =>
      intro h
      injection h with h2
      subst h2
      exact ⟨[], rest, rfl, (contains_true_iff S _).mp hc, by simp⟩
    next hc =>
      intro h
      obtain ⟨pre, suf, hC, hr, hpre⟩ := ih h
      refine ⟨c :: pre, suf, by simp [hC], hr, ?_⟩
      intro d hd
      rcases List.mem_cons.mp hd with rfl | hd2
      · exact fun hm => hc ((contains_true_iff S _).mpr hm)
      · exact hpre d hd2

/-- C6.  Column resolution: `findFirst` returns the first candidate (in the
given priority order) whose lowercase form is in the column set, and null
when none matches; in particular, for the column set containing status_id
and ativo and the candidate list Status, ativo, situacao it returns ativo
(Status lowercases to status, which is not in the set). -/
theorem c6_findFirst_priority :
    (∀ (S C : List String) (r : String), findFirst S C = some r →
        ∃ pre suf, C = pre ++ r :: suf ∧ toLowerStr r ∈ S
          ∧ ∀ c ∈ pre, toLowerStr c ∉ S)
  ∧ (∀ (S C : List String), findFirst S C = none ↔ ∀ c ∈ C, toLowerStr c ∉ S)
  ∧ findFirst ["status_id", "ativo"] ["Status", "ativo", "situacao"] = some "ativo" := by
  refine ⟨findFirst_eq_some, findFirst_eq_none_iff, ?_⟩
  decide

/-- Witness for C6 at a concrete input: the none-case of the theorem applied
to a column set matching no candidate. -/
theorem c6_findFirst_priority_witness :
    findFirst ["id_argus"] ["Status", "ativo"] = none :=
  (c6_findFirst_priority.2.1 ["id_argus"] ["Status", "ativo"]).mpr (by decide)

/-- C3 counterexample.  From a clean state (failCount 0) a failure at time 0
sets `failCount := min(0+1, 6) = 1` as the claim states, but sets
`nextAllowedAt` to 0 + 15·2⁰·1000 = 15000, not the claimed
0 + min(15·2^failCount, 300)·1000 = 30000: the code computes the delay with
exponent `failCount - 1` (statusController.js line 609), not `failCount`. -/
theorem c3_backoff_counterexample :
    (increaseBackoff statusInit 0).failCount = min (0 + 1) 6
  ∧ (increaseBackoff statusInit 0).nextAllowedAt = 15000
  ∧ (increaseBackoff statusInit 0).nextAllowedAt
      ≠ 0 + (min (15 * 2 ^ (increaseBackoff statusInit 0).failCount) 300) * 1000 := by
  refine ⟨rfl, rfl, ?_⟩
  decide

/-- C3 (amended).  Every failure sets `failureCount := min(failureCount+1, 6)`
and `nextAllowedAt := now + min(baseDelay * 2^(failureCount-1), maxDelay)`
where the exponent uses the UPDATED (incremented, capped) count — with base
15 s and cap 300 s — and every success resets the state to failCount 0,
nextAllowedAt 0. -/
theorem c3_backoff_amended (s : StatusSt) (t : Nat) :
    (increaseBackoff s t).failCount = min (s.failCount + 1) 6
  ∧ (increaseBackoff s t).nextAllowedAt
      = t + (min (15 * 2 ^ ((increaseBackoff s t).failCount - 1)) 300) * 1000
  ∧ (resetBackoff s).failCount = 0
  ∧ (resetBackoff s).nextAllowedAt = 0 := by
  refine ⟨rfl, ?_, rfl, rfl⟩
  simp [increaseBackoff]

end StatusController

namespace CacheSvc

/-- C7 counterexample.  With ttl 5 set at time 0, a get at time 5 (so that
`T - T0 >= ttl`) still returns the value: the freshness test at
cacheService.js line 57 is the strict `Date.now() > entry.expiresAt`, so the
instant `T0 + ttl` itself is still served. -/
theorem c7_cache_ttl_counterexample :
    (5 : Nat) - 0 ≥ 5
  ∧ (CacheService.get (CacheService.set (CacheService.empty Nat 60000) "k" 42 5 0) "k" 5).1
      = some 42 := by
  exact ⟨by decide, rfl⟩

/-- C7 (amended).  After `set(k, v, ttl)` at time T0, `get(k)` at time T
returns v exactly when `T - T0 ≤ ttl` (the boundary instant T - T0 = ttl is
still served), returns null with the entry evicted when `T - T0 > ttl`, and
`get` on an absent key returns null. -/
theorem c7_cache_ttl {α : Type} (c : CacheService α) (k : String) (v : α)
    (ttl T0 T : Nat) :
    ((CacheService.get (CacheService.set c k v ttl T0) k T).1
        = if T - T0 ≤ ttl then some v else none)
  ∧ (T - T0 > ttl →
      ((CacheService.get (CacheService.set c k v ttl T0) k T).2.cache k = none))
  ∧ (c.cache k = none → (CacheService.get c k T).1 = none) := by
  have hget : (CacheService.set c k v ttl T0).cache k
      = some { value := v, expiresAt := T0 + ttl } := by
    simp [CacheService.set]
  refine ⟨?_, ?_, ?_⟩
  · by_cases hfresh : T > T0 + ttl
    · have : ¬ (T - T0 ≤ ttl) := by omega
      simp [CacheService.get, hget, if_pos hfresh, this]
    · have : T - T0 ≤ ttl := by omega
      simp [CacheService.get, hget, if_neg hfresh, this]
  · intro hstale
    have hfresh : T > T0 + ttl := by omega
    simp [CacheService.get, hget, if_pos hfresh]
  · intro habs
    simp [CacheService.get, habs]

/-- Witness for C7 (amended) at concrete inputs: eviction after expiry and
null on an absent key. -/
theorem c7_cache_ttl_witness :
    ((CacheService.get (CacheService.set (CacheService.empty Nat 60000) "k" 42 5 0) "k" 6).2.cache "k"
        = none)
  ∧ (CacheService.get (CacheService.empty Nat 60000) "x" 3).1 = none :=
  ⟨(c7_cache_ttl (CacheService.empty Nat 60000) "k" 42 5 0 6).2.1 (by decide),
   (c7_cache_ttl (CacheService.empty Nat 60000) "x" 42 5 0 3).2.2 rfl⟩

end CacheSvc

namespace StatusController

/-- Embeds one network interaction of `axios.get` inside
`fetchArgusForRamal` (statusController.js lines 90-95): an HTTP 200 with a
JSON body (codStatus, statusOperador.descricaoStatus,
statusOperador.tempoStatus in ms), a 200 with an empty body, any other HTTP
status (validateStatus accepts them all), or a thrown network error. -/
inductive ArgusResp where
  | ok (codStatus : Nat) (descricaoStatus : String) (tempoStatus : Nat)
  | emptyBody
  | httpStatus (code : Nat)
  | netError
deriving DecidableEq

/-- Embeds the value built at statusController.js lines 103-108 (the `raw`
field is the response body and is omitted). -/
structure ArgusResult where
  ramal : String
  descricaoStatus : String
  tempoStatusSegundos : Nat
deriving DecidableEq

/-- Result of one `fetchArgusForRamal` call: its return value, the final
`state._argusAuthFailed` flag, and how many network requests it made. -/
structure FetchOut where
  result : Option ArgusResult
  authFailed : Bool
  calls : Nat
deriving DecidableEq

/-- Embeds the default `ARGUS_RETRY` (statusController.js line 14). -/
def ARGUS_RETRY : Nat := 2

/-- Embeds the retry loop of `fetchArgusForRamal` (lines 88-148).
`responses attempt` is the network oracle for the given attempt index and
`fuel` is the number of attempts still available (initially
`ARGUS_RETRY + 1`).  A 200 with truthy `codStatus ≠ 1` returns null; a 200
otherwise returns the parsed result; 403 sets the auth-failed flag and
returns null; 400 returns null without retrying; every other status and a
thrown error retry while attempts remain and otherwise fall through to the
final `return null`. -/
def runAttempts (ramal : String) (responses : Nat → ArgusResp) (attempt : Nat) :
    Nat → FetchOut
  | 0 => { result := none, authFailed := false, calls := 0 }
  | fuel + 1 =>
    match responses attempt with
    | .ok cod desc tempo =>
      if cod ≠ 0 ∧ cod ≠ 1 then { result := none, authFailed := false, calls := 1 }
      else
        { result := some { ramal := ramal, descricaoStatus := desc
                           tempoStatusSegundos := tempo / 1000 }
          authFailed := false, calls := 1 }
    | .httpStatus code =>
      if code = 403 then { result := none, authFailed := true, calls := 1 }
      else if code = 400 then { result := none, authFailed := false, calls := 1 }
      else if fuel = 0 then { result := none, authFailed := false, calls := 1 }
      else
        let rest := runAttempts ramal responses (attempt + 1) fuel
        { rest with calls := rest.calls + 1 }
    | .emptyBody =>
      if fuel = 0 then { result := none, authFailed := false, calls := 1 }
      else
        let rest := runAttempts ramal responses (attempt + 1) fuel
        { rest with calls := rest.calls + 1 }
    | .netError =>
      if fuel = 0 then { result := none, authFailed := false, calls := 1 }
      else
        let rest := runAttempts ramal responses (attempt + 1) fuel
        { rest with calls := rest.calls + 1 }

/-- Embeds `fetchArgusForRamal(ramal)` (statusController.js lines 80-149).
`hasToken` embeds the truthiness of `ARGUS_TOKEN`, an empty `ramal` string
embeds a falsy ramal, and `authFailed` is the `state._argusAuthFailed` flag
at entry; the returned `FetchOut` carries the flag at exit and the number of
network requests made. -/
def fetchArgusForRamal (hasToken : Bool) (ramal : String) (authFailed : Bool)
    (responses : Nat → ArgusResp) : FetchOut :=
  if hasToken = false ∨ ramal = "" then
    { result := none, authFailed := authFailed, calls := 0 }
  else if authFailed then
    { result := none, authFailed := authFailed, calls := 0 }
  else
    let out := runAttempts ramal responses 0 (ARGUS_RETRY + 1)
    { out with authFailed := authFailed || out.authFailed }

/-- C4.  403 latch: a call that observes an HTTP 403 leaves
`state._argusAuthFailed = true` (the flag starts clear and the retry loop
sets it exactly in the 403 branch, line 113), and every subsequent call made
while the flag is set performs zero network requests and returns null
immediately (line 82), leaving the flag set. -/
theorem c4_403_latch (tk : Bool) (r : String) (rs : Nat → ArgusResp)
    (h : (fetchArgusForRamal tk r false rs).authFailed = true)
    (tk2 : Bool) (r2 : String) (rs2 : Nat → ArgusResp) :
    fetchArgusForRamal tk2 r2 (fetchArgusForRamal tk r false rs).authFailed rs2
      = { result := none, authFailed := true, calls := 0 } := by
  rw [h]
  unfold fetchArgusForRamal
  by_cases hg : tk2 = false ∨ r2 = ""
  · rw [if_pos hg]
  · rw [if_neg hg, if_pos rfl]

/-- Witness for C4: a first call whose every attempt answers HTTP 403 sets
the flag, and the subsequent call short-circuits with zero requests. -/
theorem c4_403_latch_witness :
    ((fetchArgusForRamal true "4001" false (fun _ => ArgusResp.httpStatus 403)).authFailed = true)
  ∧ (fetchArgusForRamal true "4002"
        (fetchArgusForRamal true "4001" false (fun _ => ArgusResp.httpStatus 403)).authFailed
        (fun _ => ArgusResp.ok 1 "Livre" 0)
      = { result := none, authFailed := true, calls := 0 }) :=
  ⟨by decide,
   c4_403_latch true "4001" (fun _ => ArgusResp.httpStatus 403) (by decide)
     true "4002" (fun _ => ArgusResp.ok 1 "Livre" 0)⟩

/-- Embeds one row of the ramais query (statusController.js lines 481-490). -/
structure Ramal where
  id_argus : String
  id_new : Option String
deriving DecidableEq

/-- Embeds one element of `updates` (statusController.js lines 503-509). -/
structure UpdItem where
  id_argus : String
  descricaoStatus : String
  tempoStatusSegundos : Nat
  id_new : Option String
deriving DecidableEq

/-- Embeds the plain result objects `updateStatusOperadores` resolves to:
skip objects (lines 442, 446, 451, 455), update counts with an optional
warning (lines 471, 495, 519, 538, 590) and the catch result (line 596). -/
inductive UpdResult where
  | skipped (reason : String)
  | updated (n : Nat) (warning : Option String)
  | failed (errMsg : String)
deriving DecidableEq

/-- Oracle for the external effects of one `updateStatusOperadores` run:
pool availability (line 462), the two detected column sets (lines 465-466 —
`detectColumns` catches its own errors and returns a set), the ramais query
(may throw, line 489), the Argus network oracle per ramal and attempt, and
the per-ramal UPDATE / INSERT outcomes (each may throw; rowsAffected for the
UPDATE). -/
structure UpdOracle where
  poolOk : Bool
  colabCols : List String
  statusCols : List String
  ramaisQuery : Except String (List Ramal)
  responses : String → Nat → ArgusResp
  updateRows : String → Except Unit Nat
  insertRes : String → Except Unit Unit

/-- Embeds the `processBatch` call at lines 499-513: queries Argus for each
ramal through `fetchArgusForRamal`, threading `state._argusAuthFailed`, and
keeps the non-null results (nulls are filtered at line 515).  The
concurrency-6 batching only affects scheduling, not the collected results,
and is embedded sequentially. -/
def fetchBatch (responses : String → Nat → ArgusResp) (ramais : List Ramal)
    (authFailed : Bool) : List UpdItem × Bool :=
  match ramais with
  | [] => ([], authFailed)
  | item :: rest =>
    let out := fetchArgusForRamal true item.id_argus authFailed (responses item.id_argus)
    let tail := fetchBatch responses rest out.authFailed
    match out.result with
    | none => tail
    | some arg =>
      ({ id_argus := item.id_argus, descricaoStatus := arg.descricaoStatus
         tempoStatusSegundos := arg.tempoStatusSegundos, id_new := item.id_new } :: tail.1,
       tail.2)

/-- Embeds the `tempoDest` destination-column choice (lines 526-528). -/
def tempoDest (statusCols : List String) : Option String :=
  if statusCols.contains "tempostatus" then some "tempoStatus"
  else if statusCols.contains "tempo_status" then some "tempo_status"
  else if statusCols.contains "tempo_status_segundos" then some "tempo_status_segundos"
  else none

/-- Embeds the per-ramal upsert (lines 541-583): when at least one SET
clause exists, try the UPDATE (a throw is caught and the item skipped); if
it affected rows add them, otherwise (or when no SET clause exists) try the
INSERT (a throw is caught), which counts 1. -/
def upsertOne (o : UpdOracle) (u : UpdItem) (count : Nat) : Nat :=
  let hasSets :=
    (findFirst o.statusCols ["descricaoStatus", "status_operador", "descricao_status", "status"]).isSome
    || (tempoDest o.statusCols).isSome
    || ((findFirst o.statusCols ["id_new", "usuario_id"]).isSome && u.id_new.isSome)
    || (findFirst o.statusCols ["empresa"]).isSome
    || (findFirst o.statusCols ["updated_at", "updatedat", "updatedAt"]).isSome
  if hasSets then
    match o.updateRows u.id_argus with
    | .error _ => count
    | .ok rowsAffected =>
      if rowsAffected > 0 then count + rowsAffected
      else
        match o.insertRes u.id_argus with
        | .error _ => count
        | .ok _ => count + 1
  else
    match o.insertRes u.id_argus with
    | .error _ => count
    | .ok _ => count + 1

/-- Embeds the substring test `String(err).toLowerCase().includes('403')`
(line 595): a string contains 403 iff splitting on it yields more than one
piece. -/
def mentions403 (e : String) : Bool := ((toLowerStr e).splitOn "403").length != 1

/-- Embeds the try-block of `updateStatusOperadores` (lines 461-590),
returning either the thrown error message or the result object together
with the mutated state (auth flag from the Argus calls, cache invalidation
at line 586, `resetBackoff` on the success paths). -/
def updBody (o : UpdOracle) (s : StatusSt) : Except String (UpdResult × StatusSt) :=
  if o.poolOk = false then Except.error "Pool DB indisponivel"
  else if ¬ (o.colabCols.contains "id_argus" || o.colabCols.contains "ramal") then
    Except.ok (UpdResult.updated 0 none, resetBackoff s)
  else
    match o.ramaisQuery with
    | .error e => Except.error e
    | .ok ramais =>
      if ramais.isEmpty then Except.ok (UpdResult.updated 0 none, resetBackoff s)
      else
        let fetched := fetchBatch o.responses ramais s.argusAuthFailed
        let s1 := { s with argusAuthFailed := fetched.2 }
        if fetched.1.isEmpty then Except.ok (UpdResult.updated 0 none, resetBackoff s1)
        else
          match findFirst o.statusCols ["id_argus", "ramal"] with
          | none => Except.ok (UpdResult.updated 0 (some "status table sem id_argus"), s1)
          | some _ =>
            let updatedCount := fetched.1.foldl (fun acc u => upsertOne o u acc) 0
            let s2 := { s1 with cacheData := none, cacheTs := 0 }
            Except.ok (UpdResult.updated updatedCount none, resetBackoff s2)

/-- Embeds `updateStatusOperadores()` called at time `t` (lines 437-600):
the backoff / in-flight / no-token / auth-failed guards return skip objects
without touching the state; otherwise `isFetching` is set, the body runs,
the catch applies `increaseBackoff` and latches the auth flag when the
message mentions 403, and the finally clears `isFetching` on every path. -/
def updateStatusOperadores (o : UpdOracle) (hasToken : Bool) (t : Nat) (s : StatusSt) :
    UpdResult × StatusSt :=
  if t < s.nextAllowedAt then (UpdResult.skipped "backoff", s)
  else if s.isFetching then (UpdResult.skipped "in-flight", s)
  else if hasToken = false then (UpdResult.skipped "no-token", s)
  else if s.argusAuthFailed then (UpdResult.skipped "argus-auth-failed", s)
  else
    let s1 := { s with isFetching := true }
    match updBody o s1 with
    | .ok (r, s2) => (r, { s2 with isFetching := false })
    | .error e =>
      let s2 := increaseBackoff { s1 with lastError := some e } t
      let s3 := { s2 with argusAuthFailed := s2.argusAuthFailed || mentions403 e }
      (UpdResult.failed e, { s3 with isFetching := false })

/-- C10.  Fetch-flag release: a call entered with the in-flight flag clear
always terminates with `state.isFetching = false` (the finally block clears
it on the success and the failure path alike), and in general every call
either terminates with the flag clear or is a guard skip that leaves the
state completely unchanged; the function always resolves to a result object
(it is total into `UpdResult × StatusSt`, every internal throw being caught
by the outer catch). -/
theorem c10_fetch_flag_release (o : UpdOracle) (tk : Bool) (t : Nat) (s : StatusSt) :
    (s.isFetching = false → (updateStatusOperadores o tk t s).2.isFetching = false)
  ∧ ((updateStatusOperadores o tk t s).2.isFetching = false
      ∨ (updateStatusOperadores o tk t s).2 = s) := by
  unfold updateStatusOperadores
  split
  · exact ⟨fun hs => hs, Or.inr rfl⟩
  · split
    · exact ⟨fun hs => hs, Or.inr rfl⟩
    · split
      · exact ⟨fun hs => hs, Or.inr rfl⟩
      · split
        · exact ⟨fun hs => hs, Or.inr rfl⟩
        · dsimp only
          split
          · exact ⟨fun _ => rfl, Or.inl rfl⟩
          · exact ⟨fun _ => rfl, Or.inl rfl⟩

/-- Witness for C10: a run whose pool is down (the body throws) still ends
with the in-flight flag clear. -/
theorem c10_fetch_flag_release_witness :
    (updateStatusOperadores
        { poolOk := false, colabCols := [], statusCols := [], ramaisQuery := Except.ok []
          responses := fun _ _ => ArgusResp.netError, updateRows := fun _ => Except.error ()
          insertRes := fun _ => Except.error () }
        true 0 statusInit).2.isFetching = false :=
  (c10_fetch_flag_release
      { poolOk := false, colabCols := [], statusCols := [], ramaisQuery := Except.ok []
        responses := fun _ _ => ArgusResp.netError, updateRows := fun _ => Except.error ()
        insertRes := fun _ => Except.error () }
      true 0 statusInit).1 rfl

/-- Embeds `STATUS_CACHE_MS` at its default (statusController.js line 16). -/
def STATUS_CACHE_MS : Nat := 15000

/-- Embeds the catch-path default payload of `getStatusOperadores`
(statusController.js line 432). -/
def emptyStatusPayload : StatusPayload :=
  { operadores := [], horario_atual := none, total := none, totalActive := 0
    logados := 0, logados_total := 0 }

/-- Embeds `getStatusOperadores(req, res)` at time `t` (lines 179-434).
The try-block after the freshness check (DB work building the payload,
lines 186-422) is abstracted by the oracle `tryBody`: `.ok p` is the built
payload (which is cached and returned) and `.error e` is any throw, which
the catch turns into the stale cached payload when one exists and the empty
default payload otherwise — always with HTTP status 200.  The fire-and-
forget `updateStatusOperadores()` kick at line 425 is a separate operation
and not part of the response. -/
def getStatusOperadores (tryBody : Except String StatusPayload) (t : Nat) (s : StatusSt) :
    HResp StatusPayload × StatusSt :=
  if s.cacheData.isSome ∧ t - s.cacheTs < STATUS_CACHE_MS then
    ({ status := 200, body := s.cacheData.getD emptyStatusPayload }, s)
  else
    match tryBody with
    | .ok p => ({ status := 200, body := p }, { s with cacheData := some p, cacheTs := t })
    | .error e =>
      match s.cacheData with
      | some d => ({ status := 200, body := d }, { s with lastError := some e })
      | none => ({ status := 200, body := emptyStatusPayload }, { s with lastError := some e })

end StatusController

namespace RankingController

/-- Embeds `CACHE_MS` at its default (rankingController.js line 9). -/
def CACHE_MS : Nat := 15000

/-- Embeds one normalized ranking record as built at rankingController.js
lines 296-304.  `valorVendido` is a currency amount; the JS number is
embedded as an exact integer amount (the sort and rank logic only compares
amounts). -/
structure RankRow where
  id : String
  nome : String
  equipe : String
  foto : Option String
  valorVendido : Int
  posicao : Nat
  empresa : String
deriving DecidableEq

/-- Embeds one element of `allRows` (line 274): a seller id with its
aggregated sale total for the day. -/
structure SaleRow where
  id : String
  valorVendido : Int
deriving DecidableEq

/-- Embeds one row of the vendedores query (lines 231-239). -/
structure Vendedor where
  id_new : String
  nome : String
  equipe : String
  empresa : String
deriving DecidableEq

/-- Ordering used by the sort at line 275: the comparator
`(a, b) => b.valorVendido - a.valorVendido` sorts by descending amount. -/
def rankGE (a b : SaleRow) : Prop := b.valorVendido ≤ a.valorVendido

instance : DecidableRel rankGE := fun a b => inferInstanceAs (Decidable (b.valorVendido ≤ a.valorVendido))

instance : IsTotal SaleRow rankGE := ⟨fun a b => le_total b.valorVendido a.valorVendido⟩

instance : IsTrans SaleRow rankGE := ⟨fun _ _ _ h1 h2 => le_trans h2 h1⟩

instance : IsRefl SaleRow rankGE := ⟨fun a => le_refl a.valorVendido⟩

/-- Embeds the pure ranking construction of `updateRanking`
(rankingController.js lines 274-305): the sales map entries become rows,
are sorted descending by amount — `Array.prototype.sort` is a stable sort
(ES2019), embedded as the stable insertion sort on the `rankGE` preorder —
truncated to the top 5, and enriched into `RankRow`s with `posicao = idx+1`.
`vendMap` embeds the seller lookup map of line 289 and `fotoOf` the
photo-map lookup plus `sanitizeFotoPath` application of lines 292-295. -/
def updateRankingRows (key : String) (vendMap : String → Option Vendedor)
    (fotoOf : String → Option String) (sales : List (String × Int)) : List RankRow :=
  let allRows : List SaleRow := sales.map (fun p => { id := p.1, valorVendido := p.2 })
  let sorted := List.insertionSort rankGE allRows
  let topRows := sorted.take 5
  topRows.enum.map (fun p =>
    { id := p.2.id
      nome := match vendMap p.2.id with
        | some v => if v.nome = "" then "Vendedor Não Encontrado" else v.nome
        | none => "Vendedor Não Encontrado"
      equipe := match vendMap p.2.id with
        | some v => if v.equipe = "" then "N/A" else v.equipe
        | none => "N/A"
      foto := fotoOf p.2.id
      valorVendido := p.2.valorVendido
      posicao := p.1 + 1
      empresa := match vendMap p.2.id with
        | some v => if v.empresa = "" then key else v.empresa
        | none => key })

/-- Embeds one entry of `rankingCacheMap` (rankingController.js line 15):
`{ data, ts, isFetching, fetchPromise }`, the promise embedded by an id. -/
structure RankCell where
  data : Option (List RankRow)
  ts : Nat
  isFetching : Bool
  fetchPromise : Option Nat
deriving DecidableEq

/-- Embeds the error-path mutation at line 319: `cache.isFetching = false`
when the entry exists (note: `fetchPromise` is NOT cleared here). -/
def updateRankingFailCell : Option RankCell → Option RankCell
  | none => none
  | some c => some { c with isFetching := false }

/-- Embeds the finally block of the fetch promise (lines 358-361):
`c.isFetching = false; c.fetchPromise = null` on the current entry. -/
def clearFlags : Option RankCell → Option RankCell
  | none => none
  | some c => some { c with isFetching := false, fetchPromise := none }

/-- Embeds the map entry written by the handler at line 364:
`{ data: cache?.data ?? null, ts: cache?.ts ?? 0, isFetching: true,
fetchPromise: p }`. -/
def rankingStartCell (pid : Nat) (cell : Option RankCell) : Option RankCell :=
  some { data := cell.bind RankCell.data
         ts := match cell with | some c => c.ts | none => 0
         isFetching := true
         fetchPromise := some pid }

/-- Oracle for the external effects of one `updateRanking` run: local pool
availability (line 227), the vendedores query (line 238, may throw), the
cloud sales aggregation (line 257, may throw; delivered as per-seller
totals in map-iteration = insertion order), the persisted ranking read
(`getRankingFromTable` catches its own errors and returns a list), and the
resolved photo value per seller id. -/
structure RankOracle where
  poolLocalOk : Bool
  vendedores : Except Unit (List Vendedor)
  sales : Except Unit (List (String × Int))
  persisted : List RankRow
  fotoOf : String → Option String

/-- Embeds the outer catch of `updateRanking` (lines 315-327): mark the
existing entry not-fetching, then return the stale cached data if any, else
the persisted ranking if non-empty, else the empty list. -/
def updateRankingCatch (o : RankOracle) (cell : Option RankCell) :
    List RankRow × Option RankCell :=
  let cell2 := updateRankingFailCell cell
  match cell2 with
  | some c =>
    match c.data with
    | some d => (d, cell2)
    | none => if o.persisted.isEmpty then ([], cell2) else (o.persisted, cell2)
  | none => if o.persisted.isEmpty then ([], none) else (o.persisted, none)

/-- Embeds `updateRanking(empresa)` at time `t` (lines 222-328) acting on
the cache entry for its key: pool failure and a throwing vendedores query
reach the outer catch; an empty seller list or empty sales map store and
return the empty ranking (lines 241-251, 268-272); a throwing sales query
falls back to the persisted ranking, then the stale cache entry, then `[]`
without touching the entry (lines 256-266); otherwise the built ranking is
stored (line 312) and returned.  The best-effort `saveRankingToTable` kick
(line 308) has no effect on the entry or the response. -/
def updateRanking (o : RankOracle) (key : String) (t : Nat) (cell : Option RankCell) :
    List RankRow × Option RankCell :=
  if o.poolLocalOk = false then updateRankingCatch o cell
  else
    match o.vendedores with
    | .error _ => updateRankingCatch o cell
    | .ok vs =>
      if vs.isEmpty then
        ([], some { data := some [], ts := t, isFetching := false, fetchPromise := none })
      else
        let vendedorIds := (vs.map Vendedor.id_new).filter (fun s => s ≠ "")
        if vendedorIds.isEmpty then
          ([], some { data := some [], ts := t, isFetching := false, fetchPromise := none })
        else
          match o.sales with
          | .error _ =>
            if o.persisted.isEmpty then
              match cell with
              | some c =>
                match c.data with
                | some d => (d, cell)
                | none => ([], cell)
              | none => ([], cell)
            else (o.persisted, cell)
          | .ok salesList =>
            if salesList.isEmpty then
              ([], some { data := some [], ts := t, isFetching := false, fetchPromise := none })
            else
              let result := updateRankingRows key
                (fun id => vs.find? (fun v => v.id_new = id)) o.fotoOf salesList
              (result, some { data := some result, ts := t, isFetching := false, fetchPromise := none })

/-- Embeds the cold-start path of `getRanking` (lines 352-372): write the
in-flight entry (line 364), run `updateRanking` behind the stored promise,
clear the flags in the finally, and answer 200 with the resolved ranking
(`updateRanking` is total — it catches everything — so the handler catch at
lines 369-372 is not reachable from this path). -/
def getRankingStart (o : RankOracle) (key : String) (t : Nat) (pid : Nat)
    (cell : Option RankCell) : HResp (List RankRow) × Option RankCell :=
  let r := updateRanking o key t (rankingStartCell pid cell)
  ({ status := 200, body := r.1 }, clearFlags r.2)

/-- Embeds `getRanking(req, res)` at time `t` for one cache key
(lines 332-373): fresh cache answers 200 with the cached data; an in-flight
entry awaits the same promise (`inflightRes` is that promise settling:
resolved ranking or rejection) and answers 200 with the resolved value, or
with the stale data / `[]` on rejection; otherwise the cold-start path
runs. -/
def getRanking (o : RankOracle) (key : String) (t : Nat) (pid : Nat)
    (inflightRes : Except Unit (List RankRow)) (cell : Option RankCell) :
    HResp (List RankRow) × Option RankCell :=
  match cell with
  | some c =>
    if c.data.isSome ∧ t - c.ts < CACHE_MS then
      ({ status := 200, body := c.data.getD [] }, cell)
    else if c.isFetching ∧ c.fetchPromise.isSome then
      match inflightRes with
      | .ok out => ({ status := 200, body := out }, cell)
      | .error _ => ({ status := 200, body := c.data.getD [] }, cell)
    else getRankingStart o key t pid cell
  | none => getRankingStart o key t pid cell

theorem updateRankingRows_eq (key : String) (vendMap : String → Option Vendedor)
    (fotoOf : String → Option String) (sales : List (String × Int)) :
    updateRankingRows key vendMap fotoOf sales
      = ((List.insertionSort rankGE (sales.map (fun p => { id := p.1, valorVendido := p.2 }))).take 5).enum.map
          (fun p =>
            { id := p.2.id
              nome := match vendMap p.2.id with
                | some v => if v.nome = "" then "Vendedor Não Encontrado" else v.nome
                | none => "Vendedor Não Encontrado"
              equipe := match vendMap p.2.id with
                | some v => if v.equipe = "" then "N/A" else v.equipe
                | none => "N/A"
              foto := fotoOf p.2.id
              valorVendido := p.2.valorVendido
              posicao := p.1 + 1
              empresa := match vendMap p.2.id with
                | some v => if v.empresa = "" then key else v.empresa
                | none => key }) := rfl

theorem sorted_topRows (sales : List (String × Int)) :
    List.Pairwise rankGE
      ((List.insertionSort rankGE (sales.map (fun p => { id := p.1, valorVendido := p.2 }))).take 5) := by
  have h := List.sorted_insertionSort rankGE
    (sales.map (fun p => ({ id := p.1, valorVendido := p.2 } : SaleRow)))
  exact List.Pairwise.sublist (List.take_sublist 5 _) h

/-- C8.  Ranking construction: for every non-empty per-seller totals map
(delivered in map-iteration order), the built ranking has
`min(sales, 5)` entries (so it is non-empty and at most 5 long), is sorted
in descending order of `valorVendido`, carries `posicao = i + 1` at list
index `i`, ties between equal amounts keep their input order (the sort is
stable: any equal-amount input pair survives as a sublist of the sorted
list), and the ranking rows are exactly the first 5 sorted sale rows. -/
theorem c8_ranking_construction (key : String) (vendMap : String → Option Vendedor)
    (fotoOf : String → Option String) (sales : List (String × Int))
    (hne : sales ≠ []) :
    (updateRankingRows key vendMap fotoOf sales).length = min sales.length 5
  ∧ updateRankingRows key vendMap fotoOf sales ≠ []
  ∧ List.Pairwise (fun x y => y.valorVendido ≤ x.valorVendido)
      (updateRankingRows key vendMap fotoOf sales)
  ∧ (∀ (i : Nat) (r : RankRow),
        (updateRankingRows key vendMap fotoOf sales)[i]? = some r → r.posicao = i + 1)
  ∧ (∀ a b : SaleRow,
        List.Sublist [a, b] (sales.map (fun p => { id := p.1, valorVendido := p.2 })) →
        a.valorVendido = b.valorVendido →
        List.Sublist [a, b]
          (List.insertionSort rankGE (sales.map (fun p => { id := p.1, valorVendido := p.2 }))))
  ∧ (updateRankingRows key vendMap fotoOf sales).map (fun r => (r.id, r.valorVendido))
      = ((List.insertionSort rankGE (sales.map (fun p => { id := p.1, valorVendido := p.2 }))).take 5).map
          (fun r => (r.id, r.valorVendido)) := by
  have hlen : (updateRankingRows key vendMap fotoOf sales).length = min sales.length 5 := by
    rw [updateRankingRows_eq]
    simp [Nat.min_comm]
  refine ⟨hlen, ?_, ?_, ?_, ?_, ?_⟩
  · rw [← List.length_pos, hlen]
    have h1 : 0 < sales.length := List.length_pos.mpr hne
    omega
  · have hsorted := sorted_topRows sales
    have h1 : (((List.insertionSort rankGE (sales.map (fun p => { id := p.1, valorVendido := p.2 }))).take 5).enum.map Prod.snd).Pairwise
        (fun x y : SaleRow => y.valorVendido ≤ x.valorVendido) := by
      rw [List.enum_eq_enumFrom, List.enumFrom_map_snd]
      exact hsorted
    have h2 := List.pairwise_map.mp h1
    rw [updateRankingRows_eq]
    exact List.pairwise_map.mpr h2
  · intro i r hr
    rw [updateRankingRows_eq, List.getElem?_map, List.enum_eq_enumFrom,
      List.getElem?_enumFrom] at hr
    cases htop : ((List.insertionSort rankGE (sales.map (fun p => { id := p.1, valorVendido := p.2 }))).take 5)[i]? with
    | none => rw [htop] at hr; simp at hr
    | some x =>
      rw [htop] at hr
      simp only [Option.map_some'] at hr
      injection hr with hr2
      rw [← hr2]
      show 0 + i + 1 = i + 1
      omega
  · intro a b hsub heq
    have hab : rankGE a b := le_of_eq heq.symm
    exact List.pair_sublist_insertionSort hab hsub
  · rw [updateRankingRows_eq, List.map_map]
    have hsnd : ((List.insertionSort rankGE (sales.map (fun p => { id := p.1, valorVendido := p.2 }))).take 5).enum.map Prod.snd
        = (List.insertionSort rankGE (sales.map (fun p => { id := p.1, valorVendido := p.2 }))).take 5 := by
      rw [List.enum_eq_enumFrom, List.enumFrom_map_snd]
    conv_rhs => rw [← hsnd, List.map_map]
    rfl

/-- Witness for C8 at the sale totals of the spec example (A 100.00,
B 250.50, C 250.50 — amounts in cents): B and C tie and keep input order,
so the ranking is B(1), C(2), A(3). -/
theorem c8_ranking_construction_witness :
    ((updateRankingRows "VIEIRACRED" (fun _ => none) (fun _ => none)
        [("A", 10000), ("B", 25050), ("C", 25050)]).length = min 3 5)
  ∧ ((updateRankingRows "VIEIRACRED" (fun _ => none) (fun _ => none)
        [("A", 10000), ("B", 25050), ("C", 25050)]).map (fun r => (r.id, r.valorVendido, r.posicao))
      = [("B", 25050, 1), ("C", 25050, 2), ("A", 10000, 3)]) :=
  ⟨(c8_ranking_construction "VIEIRACRED" (fun _ => none) (fun _ => none)
      [("A", 10000), ("B", 25050), ("C", 25050)] (by decide)).1,
   by decide⟩

end RankingController

namespace EmpresaController

/-- Embeds `CACHE_MS` at its default (empresaController.js line 34). -/
def CACHE_MS : Nat := 60000

/-- Embeds the module-level `empresasCache` object (empresaController.js
lines 36-41), the promise embedded by an id. -/
structure EmpCell where
  data : Option (List String)
  ts : Nat
  isFetching : Bool
  fetchPromise : Option Nat
deriving DecidableEq

/-- Embeds the initial `empresasCache` value (lines 36-41). -/
def empInit : EmpCell :=
  { data := none, ts := 0, isFetching := false, fetchPromise := none }

/-- Embeds `updateEmpresas()` at time `t` (lines 50-88): on a successful
query the distinct company list is trimmed, filtered and stored in a fresh
cache object (isFetching false, fetchPromise null); on any throw the catch
only sets `isFetching = false` — it does NOT clear `fetchPromise` — and
returns the stale data if any, else `[]`. -/
def updateEmpresas (db : Except Unit (List String)) (t : Nat) (c : EmpCell) :
    List String × EmpCell :=
  match db with
  | .ok rows =>
    let empresas := (rows.map String.trim).filter (fun s => s ≠ "")
    (empresas, { data := some empresas, ts := t, isFetching := false, fetchPromise := none })
  | .error _ =>
    (c.data.getD [], { c with isFetching := false })

/-- Embeds the synchronous prologue of the cold-start path of `getEmpresas`
(lines 109-110): `isFetching = true` and the new promise stored. -/
def empresaStartCell (pid : Nat) (c : EmpCell) : EmpCell :=
  { c with isFetching := true, fetchPromise := some pid }

/-- Embeds `getEmpresas(req, res)` at time `t` (lines 95-125): fresh cache
answers 200 with the cached list; an in-flight entry awaits the same
promise (`inflightRes none` embeds `.catch(() => null)` after a rejection)
and answers 200 with the resolved list, or the stale data / `[]`; otherwise
the cold-start path stores the promise and awaits `updateEmpresas`, which
never throws, so the answer is always a 200. -/
def getEmpresas (db : Except Unit (List String)) (t : Nat) (pid : Nat)
    (inflightRes : Option (List String)) (c : EmpCell) : HResp (List String) × EmpCell :=
  if c.data.isSome ∧ t - c.ts < CACHE_MS then
    ({ status := 200, body := c.data.getD [] }, c)
  else if c.isFetching ∧ c.fetchPromise.isSome then
    match inflightRes with
    | some out => ({ status := 200, body := out }, c)
    | none => ({ status := 200, body := c.data.getD [] }, c)
  else
    let r := updateEmpresas db t (empresaStartCell pid c)
    ({ status := 200, body := r.1 }, r.2)

end EmpresaController

theorem updateRankingCatch_result (o : RankingController.RankOracle)
    (cc : Option RankingController.RankCell) :
    (RankingController.updateRankingCatch o cc).1
      = (cc.bind RankingController.RankCell.data).getD
          (if o.persisted.isEmpty = true then [] else o.persisted) := by
  unfold RankingController.updateRankingCatch RankingController.updateRankingFailCell
  cases cc with
  | none =>
    by_cases hp : o.persisted.isEmpty = true
    · simp [hp]
    · simp [hp]
  | some c =>
    cases hd : c.data with
    | none =>
      by_cases hp : o.persisted.isEmpty = true
      · simp [hd, hp]
      · simp [hd, hp]
    | some d => simp [hd]

theorem updateRanking_fail_result (o : RankingController.RankOracle) (key : String)
    (t : Nat) (cc : Option RankingController.RankCell)
    (hfail : o.poolLocalOk = false ∨ o.vendedores = Except.error ()) :
    (RankingController.updateRanking o key t cc).1
      = (cc.bind RankingController.RankCell.data).getD
          (if o.persisted.isEmpty = true then [] else o.persisted) := by
  unfold RankingController.updateRanking
  rcases hfail with hpool | hvend
  · rw [if_pos hpool]
    exact updateRankingCatch_result o cc
  · by_cases hpool : o.poolLocalOk = false
    · rw [if_pos hpool]
      exact updateRankingCatch_result o cc
    · rw [if_neg hpool, hvend]
      exact updateRankingCatch_result o cc

theorem updateRanking_salesfail_result (o : RankingController.RankOracle) (key : String)
    (t : Nat) (cc : Option RankingController.RankCell) (vs : List RankingController.Vendedor)
    (hpool : o.poolLocalOk = true) (hvend : o.vendedores = Except.ok vs)
    (hvs : vs.isEmpty = false)
    (hids : ((vs.map RankingController.Vendedor.id_new).filter (fun s => s ≠ "")).isEmpty = false)
    (hsales : o.sales = Except.error ()) :
    (RankingController.updateRanking o key t cc).1
      = if o.persisted.isEmpty = true
          then (cc.bind RankingController.RankCell.data).getD []
          else o.persisted := by
  unfold RankingController.updateRanking
  rw [if_neg (by simp [hpool]), hvend]
  simp only [hvs, Bool.false_eq_true, if_false, hids, hsales]
  by_cases hp : o.persisted.isEmpty = true
  · simp only [hp, if_true]
    cases cc with
    | none => simp
    | some c =>
      cases hd : c.data with
      | none => simp [hd]
      | some d => simp [hd]
  · simp [hp]

theorem getRankingStart_body (o : RankingController.RankOracle) (key : String)
    (t pid : Nat) (cell : Option RankingController.RankCell) :
    (RankingController.getRankingStart o key t pid cell).1.body
      = (RankingController.updateRanking o key t (RankingController.rankingStartCell pid cell)).1 := rfl

theorem rankingStartCell_bind (pid : Nat) (cell : Option RankingController.RankCell) :
    (RankingController.rankingStartCell pid cell).bind RankingController.RankCell.data
      = cell.bind RankingController.RankCell.data := rfl

/-- C2 counterexample.  The ranking handler's failure fallback consults the
persisted ranking_operador table, which the claim does not allow: with a
stale cached ranking (the B row absent, the A row cached) and a non-empty
persisted ranking (the B row), a refresh whose cloud sales query throws
answers the persisted B row, not the stale cached A row
(rankingController.js lines 256-262); and with no previously fetched value
at all, a refresh failing at the pool answers the persisted B row, not an
empty payload (lines 315-326). -/
theorem c2_stale_serve_counterexample :
    ((RankingController.getRanking
        { poolLocalOk := true
          vendedores := Except.ok [{ id_new := "1", nome := "n", equipe := "e", empresa := "V" }]
          sales := Except.error ()
          persisted := [{ id := "B", nome := "b", equipe := "e", foto := none
                          valorVendido := 2, posicao := 1, empresa := "V" }]
          fotoOf := fun _ => none }
        "V" 15000 1 (Except.error ())
        (some { data := some [{ id := "A", nome := "a", equipe := "e", foto := none
                                valorVendido := 1, posicao := 1, empresa := "V" }]
                ts := 0, isFetching := false, fetchPromise := none })).1.body
      = [{ id := "B", nome := "b", equipe := "e", foto := none
           valorVendido := 2, posicao := 1, empresa := "V" }])
  ∧ ([{ id := "B", nome := "b", equipe := "e", foto := none
        valorVendido := 2, posicao := 1, empresa := "V" }]
      ≠ [({ id := "A", nome := "a", equipe := "e", foto := none
            valorVendido := 1, posicao := 1, empresa := "V" } : RankingController.RankRow)])
  ∧ ((RankingController.getRanking
        { poolLocalOk := false, vendedores := Except.error (), sales := Except.error ()
          persisted := [{ id := "B", nome := "b", equipe := "e", foto := none
                          valorVendido := 2, posicao := 1, empresa := "V" }]
          fotoOf := fun _ => none }
        "V" 0 1 (Except.error ()) none).1.body
      = [{ id := "B", nome := "b", equipe := "e", foto := none
           valorVendido := 2, posicao := 1, empresa := "V" }])
  ∧ ([{ id := "B", nome := "b", equipe := "e", foto := none
        valorVendido := 2, posicao := 1, empresa := "V" }]
      ≠ ([] : List RankingController.RankRow)) := by
  refine ⟨?_, by decide, ?_, by decide⟩
  · decide
  · decide

/-- C2 (amended).  Stale-serve-on-failure for the three public GET
endpoints, with the ranking endpoint's persisted-table fallback made
explicit.  The status handler always answers 200, and on a failed refresh
answers the cached payload when one exists and the default empty payload
otherwise.  The ranking handler always answers 200; when its cold-start
refresh fails at the pool or the vendedores query (outer catch) it answers
the stale cached data when present, else the persisted ranking when
non-empty, else `[]`; when the cloud sales query throws (inner fallback)
it answers the persisted ranking when non-empty, else the stale cached
data, else `[]`; a caller awaiting an in-flight refresh that rejects
answers the stale cached data, else `[]`.  The companies handler always
answers 200, and on a failed refresh answers the stale list when present
and `[]` otherwise.  No execution of any of the three handlers propagates
an exception (each is a total function into a response) or answers a
non-200 status for these failures. -/
theorem c2_stale_serve_amended :
    (∀ (p : Except String StatusController.StatusPayload) (t : Nat)
        (s : StatusController.StatusSt),
        (StatusController.getStatusOperadores p t s).1.status = 200)
  ∧ (∀ (e : String) (t : Nat) (s : StatusController.StatusSt),
        (StatusController.getStatusOperadores (Except.error e) t s).1.body
          = s.cacheData.getD StatusController.emptyStatusPayload)
  ∧ (∀ (o : RankingController.RankOracle) (key : String) (t pid : Nat)
        (infl : Except Unit (List RankingController.RankRow))
        (cell : Option RankingController.RankCell),
        (RankingController.getRanking o key t pid infl cell).1.status = 200)
  ∧ (∀ (o : RankingController.RankOracle) (key : String) (t pid : Nat)
        (cell : Option RankingController.RankCell),
        (o.poolLocalOk = false ∨ o.vendedores = Except.error ()) →
        (RankingController.getRankingStart o key t pid cell).1.body
          = (cell.bind RankingController.RankCell.data).getD
              (if o.persisted.isEmpty = true then [] else o.persisted))
  ∧ (∀ (o : RankingController.RankOracle) (key : String) (t pid : Nat)
        (cell : Option RankingController.RankCell) (vs : List RankingController.Vendedor),
        o.poolLocalOk = true → o.vendedores = Except.ok vs → vs.isEmpty = false →
        ((vs.map RankingController.Vendedor.id_new).filter (fun s => s ≠ "")).isEmpty = false →
        o.sales = Except.error () →
        (RankingController.getRankingStart o key t pid cell).1.body
          = if o.persisted.isEmpty = true
              then (cell.bind RankingController.RankCell.data).getD []
              else o.persisted)
  ∧ (∀ (o : RankingController.RankOracle) (key : String) (t pid : Nat)
        (c : RankingController.RankCell),
        c.isFetching = true → c.fetchPromise.isSome = true →
        ¬ (c.data.isSome = true ∧ t - c.ts < RankingController.CACHE_MS) →
        (RankingController.getRanking o key t pid (Except.error ()) (some c)).1.body
          = c.data.getD [])
  ∧ (∀ (db : Except Unit (List String)) (t pid : Nat) (infl : Option (List String))
        (c : EmpresaController.EmpCell),
        (EmpresaController.getEmpresas db t pid infl c).1.status = 200)
  ∧ (∀ (t pid : Nat) (c : EmpresaController.EmpCell),
        (EmpresaController.getEmpresas (Except.error ()) t pid none c).1.body
          = c.data.getD []) := by
  refine ⟨?_, ?_, ?_, ?_, ?_, ?_, ?_, ?_⟩
  · intro p t s
    unfold StatusController.getStatusOperadores
    split
    · rfl
    · cases p with
      | ok q => rfl
      | error e => cases hcd : s.cacheData <;> simp [hcd]
  · intro e t s
    unfold StatusController.getStatusOperadores
    cases hcd : s.cacheData with
    | none => simp [hcd]
    | some d =>
      split
      · simp [hcd]
      · simp [hcd]
  · intro o key t pid infl cell
    cases cell with
    | none =>
      show (RankingController.getRankingStart o key t pid none).1.status = 200
      rfl
    | some c =>
      simp only [RankingController.getRanking]
      by_cases hfresh : c.data.isSome = true ∧ t - c.ts < RankingController.CACHE_MS
      · rw [if_pos hfresh]
      · rw [if_neg hfresh]
        by_cases hifl : c.isFetching = true ∧ c.fetchPromise.isSome = true
        · rw [if_pos hifl]
          cases infl with
          | ok out => rfl
          | error u => rfl
        · rw [if_neg hifl]
          rfl
  · intro o key t pid cell hfail
    rw [getRankingStart_body, updateRanking_fail_result o key t _ hfail,
      rankingStartCell_bind]
  · intro o key t pid cell vs hpool hvend hvs hids hsales
    rw [getRankingStart_body,
      updateRanking_salesfail_result o key t _ vs hpool hvend hvs hids hsales,
      rankingStartCell_bind]
  · intro o key t pid c hf hp hfresh
    simp only [RankingController.getRanking]
    rw [if_neg hfresh, if_pos ⟨hf, hp⟩]
  · intro db t pid infl c
    unfold EmpresaController.getEmpresas
    by_cases hfresh : c.data.isSome = true ∧ t - c.ts < EmpresaController.CACHE_MS
    · rw [if_pos hfresh]
    · rw [if_neg hfresh]
      by_cases hifl : c.isFetching = true ∧ c.fetchPromise.isSome = true
      · rw [if_pos hifl]
        cases infl with
        | some out => rfl
        | none => rfl
      · rw [if_neg hifl]
  · intro t pid c
    unfold EmpresaController.getEmpresas
    by_cases hfresh : c.data.isSome = true ∧ t - c.ts < EmpresaController.CACHE_MS
    · rw [if_pos hfresh]
    · rw [if_neg hfresh]
      by_cases hifl : c.isFetching = true ∧ c.fetchPromise.isSome = true
      · rw [if_pos hifl]
      · rw [if_neg hifl]
        rfl

/-- Witness for C2 (amended): a failed status refresh on a populated
cache, a cold-start ranking refresh failing at the pool with a non-empty
persisted ranking, a ranking sales failure with no persisted rows serving
the stale cache, and a failed companies refresh on a populated cache. -/
theorem c2_stale_serve_amended_witness :
    ((StatusController.getStatusOperadores (Except.error "boom") 99999
        { StatusController.statusInit with
            cacheData := some StatusController.emptyStatusPayload, cacheTs := 0 }).1.body
      = StatusController.emptyStatusPayload)
  ∧ ((RankingController.getRankingStart
        { poolLocalOk := false, vendedores := Except.error (), sales := Except.error ()
          persisted := [{ id := "B", nome := "b", equipe := "e", foto := none
                          valorVendido := 2, posicao := 1, empresa := "V" }]
          fotoOf := fun _ => none }
        "V" 0 1 none).1.body
      = [{ id := "B", nome := "b", equipe := "e", foto := none
           valorVendido := 2, posicao := 1, empresa := "V" }])
  ∧ ((RankingController.getRankingStart
        { poolLocalOk := true
          vendedores := Except.ok [{ id_new := "1", nome := "n", equipe := "e", empresa := "V" }]
          sales := Except.error (), persisted := []
          fotoOf := fun _ => none }
        "V" 15000 1
        (some { data := some [{ id := "A", nome := "a", equipe := "e", foto := none
                                valorVendido := 1, posicao := 1, empresa := "V" }]
                ts := 0, isFetching := false, fetchPromise := none })).1.body
      = [{ id := "A", nome := "a", equipe := "e", foto := none
           valorVendido := 1, posicao := 1, empresa := "V" }])
  ∧ ((EmpresaController.getEmpresas (Except.error ()) 99999 1 none
        { data := some ["VIEIRACRED"], ts := 0, isFetching := false
          fetchPromise := none }).1.body = ["VIEIRACRED"]) :=
  ⟨c2_stale_serve_amended.2.1 "boom" 99999
      { StatusController.statusInit with
          cacheData := some StatusController.emptyStatusPayload, cacheTs := 0 },
   (c2_stale_serve_amended.2.2.2.1
      { poolLocalOk := false, vendedores := Except.error (), sales := Except.error ()
        persisted := [{ id := "B", nome := "b", equipe := "e", foto := none
                        valorVendido := 2, posicao := 1, empresa := "V" }]
        fotoOf := fun _ => none }
      "V" 0 1 none (Or.inl rfl)).trans (by decide),
   (c2_stale_serve_amended.2.2.2.2.1
      { poolLocalOk := true
        vendedores := Except.ok [{ id_new := "1", nome := "n", equipe := "e", empresa := "V" }]
        sales := Except.error (), persisted := []
        fotoOf := fun _ => none }
      "V" 15000 1
      (some { data := some [{ id := "A", nome := "a", equipe := "e", foto := none
                              valorVendido := 1, posicao := 1, empresa := "V" }]
              ts := 0, isFetching := false, fetchPromise := none })
      [{ id_new := "1", nome := "n", equipe := "e", empresa := "V" }]
      rfl rfl rfl (by decide) rfl).trans (by decide),
   c2_stale_serve_amended.2.2.2.2.2.2.2 99999 1
      { data := some ["VIEIRACRED"], ts := 0, isFetching := false, fetchPromise := none }⟩

/-- Reachable states of the `empresasCache` cell under its await-granularity
operations: the initial value, the cold-start prologue of `getEmpresas`
(lines 109-110), a completed `updateEmpresas` (also invoked directly by the
scheduler), and a completed `getEmpresas` request. -/
inductive EmpCellReach : EmpresaController.EmpCell → Prop where
  | init : EmpCellReach EmpresaController.empInit
  | start (pid : Nat) (c : EmpresaController.EmpCell) :
      EmpCellReach c → EmpCellReach (EmpresaController.empresaStartCell pid c)
  | upd (db : Except Unit (List String)) (t : Nat) (c : EmpresaController.EmpCell) :
      EmpCellReach c → EmpCellReach (EmpresaController.updateEmpresas db t c).2
  | get (db : Except Unit (List String)) (t pid : Nat) (infl : Option (List String))
      (c : EmpresaController.EmpCell) :
      EmpCellReach c → EmpCellReach (EmpresaController.getEmpresas db t pid infl c).2

/-- Reachable states of a `rankingCacheMap` entry under its
await-granularity operations: absent entry, the handler in-flight write
(line 364), the promise finally (lines 358-361), a completed
`updateRanking` (also invoked directly by the scheduler), and a completed
`getRanking` request. -/
inductive RankCellReach : Option RankingController.RankCell → Prop where
  | init : RankCellReach none
  | start (pid : Nat) (c : Option RankingController.RankCell) :
      RankCellReach c → RankCellReach (RankingController.rankingStartCell pid c)
  | clear (c : Option RankingController.RankCell) :
      RankCellReach c → RankCellReach (RankingController.clearFlags c)
  | upd (o : RankingController.RankOracle) (key : String) (t : Nat)
      (c : Option RankingController.RankCell) :
      RankCellReach c → RankCellReach (RankingController.updateRanking o key t c).2
  | get (o : RankingController.RankOracle) (key : String) (t pid : Nat)
      (infl : Except Unit (List RankingController.RankRow))
      (c : Option RankingController.RankCell) :
      RankCellReach c → RankCellReach (RankingController.getRanking o key t pid infl c).2

theorem updateEmpresas_not_fetching (db : Except Unit (List String)) (t : Nat)
    (c : EmpresaController.EmpCell) :
    (EmpresaController.updateEmpresas db t c).2.isFetching = false := by
  unfold EmpresaController.updateEmpresas
  match db with
  | .ok rows => rfl
  | .error _ => rfl

theorem getEmpresas_cell (db : Except Unit (List String)) (t pid : Nat)
    (infl : Option (List String)) (c : EmpresaController.EmpCell) :
    (EmpresaController.getEmpresas db t pid infl c).2 = c
  ∨ (EmpresaController.getEmpresas db t pid infl c).2.isFetching = false := by
  unfold EmpresaController.getEmpresas
  split
  · exact Or.inl rfl
  · split
    · match infl with
      | some out => exact Or.inl rfl
      | none => exact Or.inl rfl
    · exact Or.inr (updateEmpresas_not_fetching db t _)

theorem updateRanking_cell (o : RankingController.RankOracle) (key : String) (t : Nat)
    (c : Option RankingController.RankCell) :
    (RankingController.updateRanking o key t c).2 = c
  ∨ (∀ x, (RankingController.updateRanking o key t c).2 = some x → x.isFetching = false) := by
  have hcatch : ∀ x, (RankingController.updateRankingCatch o c).2 = some x →
      x.isFetching = false := by
    intro x hx
    unfold RankingController.updateRankingCatch at hx
    match hc : RankingController.updateRankingFailCell c with
    | none =>
      rw [hc] at hx
      split at hx <;> simp_all
    | some y =>
      have hy : y.isFetching = false := by
        unfold RankingController.updateRankingFailCell at hc
        match c with
        | none => simp at hc
        | some z =>
          simp only [Option.some.injEq] at hc
          rw [← hc]
      rw [hc] at hx
      match hd : y.data with
      | some d => simp only [hd] at hx; injection hx with h2; rw [← h2]; exact hy
      | none =>
        simp only [hd] at hx
        split at hx <;> (injection hx with h2; rw [← h2]; exact hy)
  unfold RankingController.updateRanking
  dsimp only
  repeat' split
  all_goals
    first
    | exact Or.inl rfl
    | exact Or.inr hcatch
    | · refine Or.inr ?_
        intro x hx
        injection hx with h2
        rw [← h2]

theorem clearFlags_not_fetching (c : Option RankingController.RankCell) :
    ∀ x, RankingController.clearFlags c = some x → x.isFetching = false := by
  intro x hx
  unfold RankingController.clearFlags at hx
  match c with
  | none => simp at hx
  | some y =>
    injection hx with h2
    rw [← h2]

theorem getRanking_cell (o : RankingController.RankOracle) (key : String) (t pid : Nat)
    (infl : Except Unit (List RankingController.RankRow))
    (c : Option RankingController.RankCell) :
    (RankingController.getRanking o key t pid infl c).2 = c
  ∨ (∀ x, (RankingController.getRanking o key t pid infl c).2 = some x →
      x.isFetching = false) := by
  have hstart : ∀ x, (RankingController.getRankingStart o key t pid c).2 = some x →
      x.isFetching = false := by
    intro x hx
    unfold RankingController.getRankingStart at hx
    exact clearFlags_not_fetching _ x hx
  cases c with
  | none => exact Or.inr hstart
  | some cc =>
    simp only [RankingController.getRanking]
    by_cases hfresh : cc.data.isSome = true ∧ t - cc.ts < RankingController.CACHE_MS
    · rw [if_pos hfresh]
      exact Or.inl rfl
    · rw [if_neg hfresh]
      by_cases hifl : cc.isFetching = true ∧ cc.fetchPromise.isSome = true
      · rw [if_pos hifl]
        cases infl with
        | ok out => exact Or.inl rfl
        | error u => exact Or.inl rfl
      · rw [if_neg hifl]
        exact Or.inr hstart

/-- C5 counterexample.  A cold-start `getEmpresas` whose refresh throws
leaves the cell with `isFetching = false` but `fetchPromise` still set (the
catch of `updateEmpresas` at line 81 clears only the flag), so
`isFetching = true iff fetchPromise != null` fails at a quiescent state
between completed operations. -/
theorem c5_coherence_counterexample :
    ((EmpresaController.getEmpresas (Except.error ()) 100 7 none
        EmpresaController.empInit).2.isFetching = false)
  ∧ ((EmpresaController.getEmpresas (Except.error ()) 100 7 none
        EmpresaController.empInit).2.fetchPromise = some 7) :=
  ⟨rfl, rfl⟩

/-- C5 (amended).  Each cache key owns a single promise slot (so at most
one in-flight promise per key), and at every await-granularity point
reachable by the cell operations of the empresa and ranking controllers,
`isFetching = true` implies `fetchPromise != null`; the converse direction
does not hold (see the counterexample: after a failed refresh the promise
field can stay non-null while `isFetching` is false). -/
theorem c5_coherence_amended :
    (∀ c : EmpresaController.EmpCell, EmpCellReach c →
        c.isFetching = true → c.fetchPromise.isSome = true)
  ∧ (∀ oc : Option RankingController.RankCell, RankCellReach oc →
        ∀ c, oc = some c → c.isFetching = true → c.fetchPromise.isSome = true) := by
  constructor
  · intro c hreach
    induction hreach with
    | init => intro h; simp [EmpresaController.empInit] at h
    | start pid c hr ih => intro _; rfl
    | upd db t c hr ih =>
      intro h
      rw [updateEmpresas_not_fetching db t c] at h
      cases h
    | get db t pid infl c hr ih =>
      rcases getEmpresas_cell db t pid infl c with heq | hno
      · rw [heq]; exact ih
      · intro h; rw [hno] at h; cases h
  · intro oc hreach
    induction hreach with
    | init => intro c hc; cases hc
    | start pid c hr ih =>
      intro x hx
      unfold RankingController.rankingStartCell at hx
      injection hx with h2
      intro _
      rw [← h2]
      rfl
    | clear c hr ih =>
      intro x hx h
      rw [clearFlags_not_fetching c x hx] at h
      cases h
    | upd o key t c hr ih =>
      rcases updateRanking_cell o key t c with heq | hno
      · rw [heq]; exact ih
      · intro x hx h
        rw [hno x hx] at h
        cases h
    | get o key t pid infl c hr ih =>
      rcases getRanking_cell o key t pid infl c with heq | hno
      · rw [heq]; exact ih
      · intro x hx h
        rw [hno x hx] at h
        cases h

/-- Witness for C5 (amended): the in-flight states written by the two
cold-start prologues carry a non-null promise. -/
theorem c5_coherence_amended_witness :
    ((EmpresaController.empresaStartCell 1 EmpresaController.empInit).fetchPromise.isSome = true)
  ∧ (({ data := none, ts := 0, isFetching := true, fetchPromise := some 3 } :
        RankingController.RankCell).fetchPromise.isSome = true) :=
  ⟨c5_coherence_amended.1 (EmpresaController.empresaStartCell 1 EmpresaController.empInit)
      (EmpCellReach.start 1 EmpresaController.empInit EmpCellReach.init) rfl,
   c5_coherence_amended.2 (RankingController.rankingStartCell 3 none)
      (RankCellReach.start 3 none RankCellReach.init)
      { data := none, ts := 0, isFetching := true, fetchPromise := some 3 } rfl rfl⟩

namespace ArgusService

/-- Embeds the module state of argusService.js relevant to single-flight:
the `isFetching` flag and waiter `queue` (lines 298-299), the cached
`argus:status` entry of the shared cache service abstracted to its fresh
value (`none` = absent or expired), and — to track who gets the result —
the caller that started the in-flight request.  `α` is the parsed Argus
response body type. -/
structure SvcState (α : Type) where
  isFetching : Bool
  queue : List Nat
  starter : Option Nat
  cached : Option α
deriving DecidableEq

/-- Embeds the initial module state (lines 298-299, empty cache). -/
def svcInit (α : Type) : SvcState α :=
  { isFetching := false, queue := [], starter := none, cached := none }

/-- Embeds the synchronous prologue of `fetchArgusData(force)` run by
caller `c` (argusService.js lines 398-410): a fresh cached value without
`force` is answered immediately; while a fetch is in flight the caller is
enqueued on the shared pending promise (`waitForFetch`, lines 375-380);
otherwise the caller sets `isFetching` and starts the single upstream
request.  Returns the new state, whether an upstream request was started,
and the immediate cached answer if one was served. -/
def fetchArgusDataEnter {α : Type} (c : Nat) (force : Bool) (s : SvcState α) :
    SvcState α × Bool × Option α :=
  if s.cached.isSome ∧ force = false then (s, false, s.cached)
  else if s.isFetching then ({ s with queue := s.queue ++ [c] }, false, none)
  else ({ s with isFetching := true, starter := some c }, true, none)

/-- Embeds the completion of the in-flight `requestArgusData()` with parsed
body `v` (argusService.js lines 341-370, 411-421): the shared cache is set
(line 354), `resolveQueue(result)` resolves every queued waiter with the
same result object (lines 385-391, 413), the starter returns that result
(line 414), and the finally clears `isFetching` (line 420).  Returns the
new state and the (caller, received value) deliveries. -/
def fetchArgusDataComplete {α : Type} (v : α) (s : SvcState α) :
    SvcState α × List (Nat × α) :=
  ({ isFetching := false, queue := [], starter := none, cached := some v },
   s.queue.map (fun c => (c, v))
     ++ (match s.starter with | some c => [(c, v)] | none => []))

/-- Folds `fetchArgusDataEnter` (without force) over a list of callers,
counting how many of them started an upstream request. -/
def runEnters {α : Type} (cs : List Nat) (s : SvcState α) : SvcState α × Nat :=
  match cs with
  | [] => (s, 0)
  | c :: rest =>
    let r := fetchArgusDataEnter c false s
    let r2 := runEnters rest r.1
    (r2.1, (if r.2.1 then 1 else 0) + r2.2)

theorem runEnters_inflight {α : Type} (cs : List Nat) (s : SvcState α)
    (hf : s.isFetching = true) (hc : s.cached = none) :
    runEnters cs s = ({ s with queue := s.queue ++ cs }, 0) := by
  induction cs generalizing s with
  | nil => simp [runEnters]
  | cons c rest ih =>
    unfold runEnters fetchArgusDataEnter
    rw [hc]
    simp only [Option.isSome_none, Bool.false_eq_true, false_and, if_false, hf, if_true]
    rw [ih { isFetching := true, queue := s.queue ++ [c], starter := s.starter, cached := none }
      rfl rfl]
    simp

end ArgusService

namespace RankingController

/-- System state for the await-granularity single-flight analysis of
`getRanking` on one cache key: the cache entry, the callers currently
awaiting the in-flight promise (the cold-start caller awaits its own
stored promise too, line 367), and the number of `updateRanking` runs
started (the upstream work). -/
structure RankSys where
  cell : Option RankCell
  waiters : List Nat
  upstream : Nat
deriving DecidableEq

/-- Embeds the initial system state: no cache entry, nobody waiting, no
upstream run started. -/
def rankSysInit : RankSys := { cell := none, waiters := [], upstream := 0 }

/-- Embeds the synchronous prologue of `getRanking` run by caller `c` at
time `t` (rankingController.js lines 336-364): a fresh cache answers
immediately from the entry; an in-flight entry joins the waiters of the
shared promise; otherwise the caller writes the in-flight entry (line 364)
with a new promise `pid`, starts the single `updateRanking` run, and then
awaits that promise like any other waiter.  Returns the new state, whether
an upstream run was started, and the immediate cached answer if one was
served. -/
def rankingEnter (c : Nat) (t : Nat) (pid : Nat) (sys : RankSys) :
    RankSys × Bool × Option (List RankRow) :=
  match sys.cell with
  | some cell =>
    if cell.data.isSome ∧ t - cell.ts < CACHE_MS then
      (sys, false, some (cell.data.getD []))
    else if cell.isFetching ∧ cell.fetchPromise.isSome then
      ({ sys with waiters := sys.waiters ++ [c] }, false, none)
    else
      ({ cell := rankingStartCell pid sys.cell, waiters := sys.waiters ++ [c]
         upstream := sys.upstream + 1 }, true, none)
  | none =>
    ({ cell := rankingStartCell pid sys.cell, waiters := sys.waiters ++ [c]
       upstream := sys.upstream + 1 }, true, none)

/-- Embeds the resolution of the in-flight promise with the ranking `v`
computed by the single `updateRanking` run: the run stored the fresh
entry (line 312), the finally cleared the flags (lines 358-361), and every
waiter's await completes with the same resolved array, each handler
answering `res.json` of it (lines 344, 367).  Returns the new state and
the (caller, received value) deliveries. -/
def rankingComplete (v : List RankRow) (t : Nat) (sys : RankSys) :
    RankSys × List (Nat × List RankRow) :=
  ({ cell := some { data := some v, ts := t, isFetching := false, fetchPromise := none }
     waiters := [], upstream := sys.upstream },
   sys.waiters.map (fun c => (c, v)))

/-- Folds `rankingEnter` over a list of callers, counting how many of them
started an upstream run. -/
def rankingRunEnters (cs : List Nat) (t pid : Nat) (sys : RankSys) : RankSys × Nat :=
  match cs with
  | [] => (sys, 0)
  | c :: rest =>
    let r := rankingEnter c t pid sys
    let r2 := rankingRunEnters rest t pid r.1
    (r2.1, (if r.2.1 then 1 else 0) + r2.2)

theorem rankingRunEnters_inflight (cs : List Nat) (t pid : Nat) (sys : RankSys)
    (cc : RankCell) (hcell : sys.cell = some cc) (hd : cc.data = none)
    (hf : cc.isFetching = true) (hp : cc.fetchPromise.isSome = true) :
    rankingRunEnters cs t pid sys = ({ sys with waiters := sys.waiters ++ cs }, 0) := by
  induction cs generalizing sys with
  | nil => simp [rankingRunEnters]
  | cons c rest ih =>
    unfold rankingRunEnters rankingEnter
    rw [hcell]
    simp only [hd, Option.isSome_none, Bool.false_eq_true, false_and, if_false, hf, hp,
      and_self, if_true]
    rw [ih { cell := some cc, waiters := sys.waiters ++ [c], upstream := sys.upstream } rfl]
    simp

end RankingController

/-- C1.  Single-flight refresh: starting from an idle state with an empty
cache, a first caller starts exactly one upstream fetch; every one of the
N callers that arrive while that fetch is in flight starts zero further
upstream work (they all share the pending promise), and on resolution all
N + 1 callers receive the identical resolved value.  Both coordinators are
covered: `fetchArgusData` of argusService.js and the `getRanking` fetch
path of rankingController.js. -/
theorem c1_single_flight (α : Type) (c0 : Nat) (cs : List Nat) (v : α)
    (rows : List RankingController.RankRow) (t t2 pid : Nat) :
    ((ArgusService.fetchArgusDataEnter c0 false (ArgusService.svcInit α)).2.1 = true)
  ∧ ((ArgusService.runEnters cs (ArgusService.fetchArgusDataEnter c0 false (ArgusService.svcInit α)).1).2 = 0)
  ∧ ((ArgusService.fetchArgusDataComplete v
        (ArgusService.runEnters cs (ArgusService.fetchArgusDataEnter c0 false (ArgusService.svcInit α)).1).1).2
      = cs.map (fun c => (c, v)) ++ [(c0, v)])
  ∧ ((RankingController.rankingEnter c0 t pid RankingController.rankSysInit).2.1 = true)
  ∧ ((RankingController.rankingRunEnters cs t pid
        (RankingController.rankingEnter c0 t pid RankingController.rankSysInit).1).2 = 0)
  ∧ ((RankingController.rankingRunEnters cs t pid
        (RankingController.rankingEnter c0 t pid RankingController.rankSysInit).1).1.upstream = 1)
  ∧ ((RankingController.rankingComplete rows t2
        (RankingController.rankingRunEnters cs t pid
          (RankingController.rankingEnter c0 t pid RankingController.rankSysInit).1).1).2
      = (c0 :: cs).map (fun c => (c, rows))) := by
  have henter : (ArgusService.fetchArgusDataEnter c0 false (ArgusService.svcInit α)).1
      = { isFetching := true, queue := [], starter := some c0, cached := none } := rfl
  have hrun := ArgusService.runEnters_inflight cs
    (ArgusService.fetchArgusDataEnter c0 false (ArgusService.svcInit α)).1
    (by rw [henter]) (by rw [henter])
  have hrenter : (RankingController.rankingEnter c0 t pid RankingController.rankSysInit).1
      = { cell := some { data := none, ts := 0, isFetching := true, fetchPromise := some pid }
          waiters := [c0], upstream := 1 } := rfl
  have hrrun := RankingController.rankingRunEnters_inflight cs t pid
    (RankingController.rankingEnter c0 t pid RankingController.rankSysInit).1
    { data := none, ts := 0, isFetching := true, fetchPromise := some pid }
    (by rw [hrenter]) rfl rfl rfl
  refine ⟨rfl, ?_, ?_, rfl, ?_, ?_, ?_⟩
  · rw [hrun]
  · rw [hrun, henter]
    simp [ArgusService.fetchArgusDataComplete]
  · rw [hrrun]
  · rw [hrrun, hrenter]
  · rw [hrrun, hrenter]
    simp [RankingController.rankingComplete]

namespace FotoService

/-- Embeds `CACHE_TTL` at its default (fotoService.js line 28). -/
def CACHE_TTL : Nat := 15000

/-- Embeds one in-memory cache record `{ fotoRaw, ts }` (fotoService.js
line 39). -/
structure FotoCacheRec where
  fotoRaw : String
  ts : Nat
deriving DecidableEq

/-- Environment for the path sanitization: `APP_BASE` (line 30),
`PUBLIC_DIR` (line 36), `fs.existsSync` as an oracle on paths, and whether
`new URL(s)` succeeds (the try at line 74) as an oracle on strings. -/
structure FsEnv where
  appBase : String
  publicDir : Option String
  existsFs : String → Bool
  parsesAsUrl : String → Bool

/-- Embeds `String.prototype.trim()` character-wise. -/
def jsTrim (s : String) : String :=
  String.mk (((s.data.dropWhile Char.isWhitespace).reverse.dropWhile Char.isWhitespace).reverse)

/-- Embeds `String.prototype.includes(n)`: the haystack has more than one
piece when split on the needle iff the needle occurs. -/
def strContains (h n : String) : Bool := (h.splitOn n).length != 1

/-- Embeds the test of the regex `^https?:\/\//i` (fotoService.js line 93). -/
def isHttpUrl (s : String) : Bool :=
  (toLowerStr s).startsWith "http://" || (toLowerStr s).startsWith "https://"

/-- Embeds the test of the regex `^data:image\/[a-zA-Z]+;base64,`
(fotoService.js lines 67, 93). -/
def isDataImage (s : String) : Bool :=
  if s.startsWith "data:image/" then
    let rest := s.drop 11
    let alpha := rest.takeWhile Char.isAlpha
    decide (0 < alpha.length) && (rest.drop alpha.length).startsWith ";base64,"
  else false

/-- Character class `[\w\-./]` of the image-file regex. -/
def isWordyChar (ch : Char) : Bool :=
  ch.isAlphanum || ch = '_' || ch = '-' || ch = '.' || ch = '/'

/-- Embeds the test of the regex `^[\w\-./]+\.(png|jpe?g|gif|webp)$/i`
(fotoService.js lines 66, 105). -/
def isImageFileName (s : String) : Bool :=
  s.data.all isWordyChar
  && (((toLowerStr s).endsWith ".png" && decide (4 < s.length))
      || ((toLowerStr s).endsWith ".jpg" && decide (4 < s.length))
      || ((toLowerStr s).endsWith ".jpeg" && decide (5 < s.length))
      || ((toLowerStr s).endsWith ".gif" && decide (4 < s.length))
      || ((toLowerStr s).endsWith ".webp" && decide (5 < s.length)))

/-- Embeds `s.replace(/^\.\//, '')`: strip one leading `./`. -/
def stripDotSlash (s : String) : String :=
  if s.startsWith "./" then s.drop 2 else s

/-- Embeds `s.replace(/^\.?\//, '')`: strip one leading `./` or `/`. -/
def stripSlashOrDotSlash (s : String) : String :=
  if s.startsWith "./" then s.drop 2
  else if s.startsWith "/" then s.drop 1
  else s

/-- Embeds `toAbsoluteUrl(p)` (fotoService.js lines 71-77): empty input
gives the empty string; a string accepted by `new URL` is returned as is;
an absolute path is prefixed with `APP_BASE`; anything else is prefixed
with `APP_BASE` plus a slash after stripping a leading `./` or `/`. -/
def toAbsoluteUrl (env : FsEnv) (p : String) : String :=
  if p = "" then ""
  else
    let s := jsTrim p
    if env.parsesAsUrl s then s
    else if s.startsWith "/" then env.appBase ++ s
    else env.appBase ++ "/" ++ stripSlashOrDotSlash s

/-- Embeds `sanitizeFotoPath(raw)` (fotoService.js lines 83-116); a JS
`null`/`undefined` argument is embedded as the empty string (the `raw ||
''` coalescing).  Every invalid or logo-vieira input maps to the default
icon URL; http(s) and data URLs pass through; absolute paths and bare
image file names are made absolute against `APP_BASE` (consulting
`PUBLIC_DIR`/`fs.existsSync` only to choose between two absolute forms). -/
def sanitizeFotoPath (env : FsEnv) (raw : String) : String :=
  let s := jsTrim raw
  if s = "" then toAbsoluteUrl env "/vieira-icone.jpg" ++ "?v=1"
  else
    let lower := toLowerStr s
    if strContains lower "logo-vieira" || strContains lower "logo_vieira"
        || lower.endsWith "logo-vieira.jpeg" || lower.endsWith "logo-vieira.jpg"
        || lower.endsWith "logo-vieira.png" then
      toAbsoluteUrl env "/vieira-icone.jpg" ++ "?v=1"
    else if isHttpUrl s || isDataImage s then s
    else if s.startsWith "/" then
      match env.publicDir with
      | some pd =>
        if env.existsFs (pd ++ "/" ++ s.drop 1) then env.appBase ++ s
        else env.appBase ++ s
      | none => env.appBase ++ s
    else if isImageFileName s then
      match env.publicDir with
      | some pd =>
        if env.existsFs (pd ++ "/" ++ stripDotSlash s) then
          env.appBase ++ "/" ++ stripDotSlash s
        else toAbsoluteUrl env ("/" ++ stripDotSlash s)
      | none => toAbsoluteUrl env ("/" ++ stripDotSlash s)
    else toAbsoluteUrl env "/vieira-icone.jpg" ++ "?v=1"

/-- Association-list lookup used to embed the recordset of one DB photo
query as delivered to `mapDb.get(id)` (fotoService.js lines 154-156);
`usuario_id` keys are unique in `operadores_new`. -/
def alGet {α : Type} : List (String × α) → String → Option α
  | [], _ => none
  | (k2, v) :: rest, k => if k2 = k then some v else alGet rest k

/-- Embeds `new Set(toFetch)` iterated in insertion order: first
occurrences, in order. -/
def setDedup : List String → List String → List String
  | [], _ => []
  | x :: xs, seen => if seen.contains x then setDedup xs seen else x :: setDedup xs (x :: seen)

/-- First occurrences of a list, in order (see `setDedup`). -/
def jsSetOf (l : List String) : List String := setDedup l []

/-- Embeds the `for (let i = 0; i < n; i += BATCH_SIZE)` chunking
(fotoService.js lines 207-209). -/
def chunksOf {α : Type} : Nat → List α → List (List α)
  | _, [] => []
  | 0, l => [l]
  | n + 1, x :: xs => ((x :: xs).take (n + 1)) :: chunksOf (n + 1) ((x :: xs).drop (n + 1))
termination_by _n l => l.length
decreasing_by
  simp only [List.length_drop, List.length_cons]
  omega

/-- Working state of one `fetchFotosMap` run: the output map, the TTL
cache, and the ids still to resolve (`toFetch` during the cache phase,
`remaining` afterwards). -/
structure FetchAcc where
  outMap : String → Option String
  cache : String → Option FotoCacheRec
  remaining : List String

/-- Embeds the cache-consultation loop of `fetchFotosMap` (fotoService.js
lines 182-196): a fresh cached record is sanitized into the output map;
a stale one is deleted and the id queued; with the cache disabled or the
id absent the id is queued. -/
def consultCache (env : FsEnv) (useCache : Bool) (t : Nat) :
    List String → FetchAcc → FetchAcc
  | [], acc => acc
  | id :: rest, acc =>
    match useCache, acc.cache id with
    | true, some rec2 =>
      if t - rec2.ts < CACHE_TTL then
        consultCache env useCache t rest
          { acc with
            outMap := fun k => if k = id then some (sanitizeFotoPath env rec2.fotoRaw) else acc.outMap k }
      else
        consultCache env useCache t rest
          { acc with
            cache := fun k => if k = id then none else acc.cache k
            remaining := acc.remaining ++ [id] }
    | _, _ =>
      consultCache env useCache t rest { acc with remaining := acc.remaining ++ [id] }

/-- Embeds the per-batch result application (fotoService.js lines 217-225):
ids found in the recordset are sanitized into the output map, cached raw,
and removed from the remaining set. -/
def applyBatchRows (env : FsEnv) (t : Nat) (rows : List (String × String)) :
    List String → FetchAcc → FetchAcc
  | [], acc => acc
  | id :: rest, acc =>
    match alGet rows id with
    | none => applyBatchRows env t rows rest acc
    | some raw =>
      applyBatchRows env t rows rest
        { outMap := fun k => if k = id then some (sanitizeFotoPath env raw) else acc.outMap k
          cache := fun k => if k = id then some { fotoRaw := raw, ts := t } else acc.cache k
          remaining := acc.remaining.erase id }

/-- Embeds one batch (fotoService.js lines 210-225): a throwing DB query is
caught and skipped (`continue`), a successful one is applied. -/
def processOneBatch (env : FsEnv)
    (db : Bool → List String → Except Unit (List (String × String)))
    (t : Nat) (useCloud : Bool) (batch : List String) (acc : FetchAcc) : FetchAcc :=
  match db useCloud batch with
  | .error _ => acc
  | .ok rows => applyBatchRows env t rows batch acc

/-- Runs the batches of one source in order (fotoService.js lines 207-226). -/
def processChunks (env : FsEnv)
    (db : Bool → List String → Except Unit (List (String × String)))
    (t : Nat) (useCloud : Bool) : List (List String) → FetchAcc → FetchAcc
  | [], acc => acc
  | b :: rest, acc =>
    processChunks env db t useCloud rest (processOneBatch env db t useCloud b acc)

/-- Embeds the `for (const useCloud of fetchOrder)` loop (fotoService.js
lines 203-230): stop when nothing remains, else chunk the remaining
snapshot and process every batch against that source. -/
def fetchPhase (env : FsEnv)
    (db : Bool → List String → Except Unit (List (String × String)))
    (t : Nat) : List Bool → FetchAcc → FetchAcc
  | [], acc => acc
  | useCloud :: rest, acc =>
    if acc.remaining.isEmpty then acc
    else fetchPhase env db t rest
      (processChunks env db t useCloud (chunksOf 300 acc.remaining) acc)

/-- Embeds the fallback loop (fotoService.js lines 233-237): every id still
unresolved maps to the sanitized default placeholder and is cached with an
empty raw value. -/
def applyFallback (env : FsEnv) (t : Nat) : List String → FetchAcc → FetchAcc
  | [], acc => acc
  | id :: rest, acc =>
    applyFallback env t rest
      { outMap := fun k => if k = id then some (sanitizeFotoPath env "") else acc.outMap k
        cache := fun k => if k = id then some { fotoRaw := "", ts := t } else acc.cache k
        remaining := acc.remaining }

/-- Embeds the part of `fetchFotosMap` after the cache consultation
(fotoService.js lines 198-239): early return when everything was cached,
else the cloud/local fetch rounds over the deduplicated to-fetch set and
the default-placeholder fallback. -/
def fetchRest (env : FsEnv)
    (db : Bool → List String → Except Unit (List (String × String)))
    (t : Nat) (preferCloud : Bool) (step1 : FetchAcc) :
    (String → Option String) × (String → Option FotoCacheRec) :=
  if step1.remaining.isEmpty then (step1.outMap, step1.cache)
  else
    let acc1 := fetchPhase env db t (if preferCloud then [true, false] else [false, true])
      { outMap := step1.outMap, cache := step1.cache, remaining := jsSetOf step1.remaining }
    ((applyFallback env t acc1.remaining acc1).outMap,
     (applyFallback env t acc1.remaining acc1).cache)

/-- Embeds `fetchFotosMap(ids, opts)` (fotoService.js lines 173-240):
cache consultation, cloud/local fetch rounds over the deduplicated
to-fetch set, then the default-placeholder fallback.  Returns the output
map and the updated TTL cache. -/
def fetchFotosMap (env : FsEnv)
    (db : Bool → List String → Except Unit (List (String × String)))
    (t : Nat) (ids : List String) (useCache preferCloud : Bool)
    (cache0 : String → Option FotoCacheRec) :
    (String → Option String) × (String → Option FotoCacheRec) :=
  fetchRest env db t preferCloud
    (consultCache env useCache t ids
      { outMap := fun _ => none, cache := cache0, remaining := [] })

end FotoService

namespace FotoService

theorem ne_empty_iff_data (s : String) : s ≠ "" ↔ s.data ≠ [] := by
  rw [not_iff_not]
  exact String.ext_iff

theorem append_ne_empty_right (a b : String) (hb : b ≠ "") : a ++ b ≠ "" := by
  rw [ne_empty_iff_data] at hb ⊢
  rw [String.data_append]
  intro hnil
  exact hb (List.append_eq_nil.mp hnil).2

theorem append_ne_empty_left (a b : String) (ha : a ≠ "") : a ++ b ≠ "" := by
  rw [ne_empty_iff_data] at ha ⊢
  rw [String.data_append]
  intro hnil
  exact ha (List.append_eq_nil.mp hnil).1

theorem jsTrim_ne_empty (s : String) (ch : Char) (hch : ch ∈ s.data)
    (hws : ch.isWhitespace = false) : jsTrim s ≠ "" := by
  rw [ne_empty_iff_data]
  show (((s.data.dropWhile Char.isWhitespace).reverse.dropWhile Char.isWhitespace).reverse) ≠ []
  intro hnil
  rw [List.reverse_eq_nil_iff] at hnil
  have hall := List.dropWhile_eq_nil_iff.mp hnil
  have hsplit : s.data.takeWhile Char.isWhitespace ++ s.data.dropWhile Char.isWhitespace
      = s.data := List.takeWhile_append_dropWhile Char.isWhitespace s.data
  have hch2 : ch ∈ s.data.takeWhile Char.isWhitespace ++ s.data.dropWhile Char.isWhitespace := by
    rw [hsplit]
    exact hch
  rcases List.mem_append.mp hch2 with h1 | h2
  · have := List.mem_takeWhile_imp h1
    rw [hws] at this
    cases this
  · have := hall ch (List.mem_reverse.mpr h2)
    rw [hws] at this
    cases this

theorem toAbsoluteUrl_slash_ne_empty (env : FsEnv) (x : String) :
    toAbsoluteUrl env ("/" ++ x) ≠ "" := by
  have hp : ("/" ++ x) ≠ "" := by
    rw [ne_empty_iff_data]
    simp
  have htrim : jsTrim ("/" ++ x) ≠ "" := by
    refine jsTrim_ne_empty _ '/' ?_ (by decide)
    rw [String.data_append]
    exact List.mem_append.mpr (Or.inl (by decide))
  unfold toAbsoluteUrl
  rw [if_neg hp]
  dsimp only
  split
  · exact htrim
  · split
    · exact append_ne_empty_right env.appBase _ htrim
    · exact append_ne_empty_left _ _
        (append_ne_empty_right _ _ (by rw [ne_empty_iff_data]; decide))

theorem sanitizeFotoPath_ne_empty (env : FsEnv) (raw : String) :
    sanitizeFotoPath env raw ≠ "" := by
  have hdef : toAbsoluteUrl env "/vieira-icone.jpg" ++ "?v=1" ≠ "" :=
    append_ne_empty_right _ _ (by rw [ne_empty_iff_data]; decide)
  unfold sanitizeFotoPath
  dsimp only
  split
  · exact hdef
  next hs =>
    split
    · exact hdef
    · split
      · exact hs
      · split
        · split
          · split
            · exact append_ne_empty_right _ _ hs
            · exact append_ne_empty_right _ _ hs
          · exact append_ne_empty_right _ _ hs
        · split
          · split
            · split
              · exact append_ne_empty_left _ _
                  (append_ne_empty_right _ _ (by rw [ne_empty_iff_data]; decide))
              · exact toAbsoluteUrl_slash_ne_empty env _
            · exact toAbsoluteUrl_slash_ne_empty env _
          · exact hdef

end FotoService

namespace FotoService

theorem consult_out_mono (env : FsEnv) (uc : Bool) (t : Nat) (ids : List String)
    (acc : FetchAcc) (id : String) (h : (acc.outMap id).isSome = true) :
    ((consultCache env uc t ids acc).outMap id).isSome = true := by
  induction ids generalizing acc with
  | nil => exact h
  | cons x rest ih =>
    unfold consultCache
    split
    · split
      · apply ih
        by_cases hx : id = x <;> simp [hx, h]
      · exact ih _ h
    · exact ih _ h

theorem consult_rem_mono (env : FsEnv) (uc : Bool) (t : Nat) (ids : List String)
    (acc : FetchAcc) (id : String) (h : id ∈ acc.remaining) :
    id ∈ (consultCache env uc t ids acc).remaining := by
  induction ids generalizing acc with
  | nil => exact h
  | cons x rest ih =>
    unfold consultCache
    split
    · split
      · exact ih _ h
      · exact ih _ (List.mem_append.mpr (Or.inl h))
    · exact ih _ (List.mem_append.mpr (Or.inl h))

theorem consult_covers (env : FsEnv) (uc : Bool) (t : Nat) (ids : List String)
    (acc : FetchAcc) :
    ∀ id ∈ ids, ((consultCache env uc t ids acc).outMap id).isSome = true
      ∨ id ∈ (consultCache env uc t ids acc).remaining := by
  induction ids generalizing acc with
  | nil =>
    intro id hid
    cases hid
  | cons x rest ih =>
    intro id hid
    rcases List.mem_cons.mp hid with rfl | hrest
    · unfold consultCache
      split
      · split
        · left
          apply consult_out_mono
          simp
        · right
          apply consult_rem_mono
          exact List.mem_append.mpr (Or.inr (by simp))
      · right
        apply consult_rem_mono
        exact List.mem_append.mpr (Or.inr (by simp))
    · unfold consultCache
      split
      · split
        · exact ih _ id hrest
        · exact ih _ id hrest
      · exact ih _ id hrest

theorem consult_values (env : FsEnv) (uc : Bool) (t : Nat) (ids : List String)
    (acc : FetchAcc) (h : ∀ id u, acc.outMap id = some u → u ≠ "") :
    ∀ id u, (consultCache env uc t ids acc).outMap id = some u → u ≠ "" := by
  induction ids generalizing acc with
  | nil => exact h
  | cons x rest ih =>
    unfold consultCache
    split
    next rec2 heq =>
      split
      · apply ih
        intro id u hu
        by_cases hx : id = x
        · rw [hx] at hu
          simp only [if_pos rfl] at hu
          injection hu with h2
          rw [← h2]
          exact sanitizeFotoPath_ne_empty env _
        · simp only [if_neg hx] at hu
          exact h id u hu
      · exact ih _ h
    · exact ih _ h

theorem abr_out_mono (env : FsEnv) (t : Nat) (rows : List (String × String))
    (l : List String) (acc : FetchAcc) (id : String)
    (h : (acc.outMap id).isSome = true) :
    ((applyBatchRows env t rows l acc).outMap id).isSome = true := by
  induction l generalizing acc with
  | nil => exact h
  | cons x rest ih =>
    unfold applyBatchRows
    split
    · exact ih _ h
    · apply ih
      by_cases hx : id = x <;> simp [hx, h]

theorem abr_covers (env : FsEnv) (t : Nat) (rows : List (String × String))
    (l : List String) (acc : FetchAcc) (id : String)
    (h : (acc.outMap id).isSome = true ∨ id ∈ acc.remaining) :
    ((applyBatchRows env t rows l acc).outMap id).isSome = true
      ∨ id ∈ (applyBatchRows env t rows l acc).remaining := by
  induction l generalizing acc with
  | nil => exact h
  | cons x rest ih =>
    unfold applyBatchRows
    split
    · exact ih _ h
    · apply ih
      by_cases hx : id = x
      · left
        simp [hx]
      · rcases h with hout | hrem
        · left
          simp [hx, hout]
        · right
          exact List.mem_erase_of_ne hx |>.mpr hrem

theorem abr_values (env : FsEnv) (t : Nat) (rows : List (String × String))
    (l : List String) (acc : FetchAcc)
    (h : ∀ id u, acc.outMap id = some u → u ≠ "") :
    ∀ id u, (applyBatchRows env t rows l acc).outMap id = some u → u ≠ "" := by
  induction l generalizing acc with
  | nil => exact h
  | cons x rest ih =>
    unfold applyBatchRows
    split
    · exact ih _ h
    · apply ih
      intro id u hu
      by_cases hx : id = x
      · rw [hx] at hu
        simp only [if_pos rfl] at hu
        injection hu with h2
        rw [← h2]
        exact sanitizeFotoPath_ne_empty env _
      · simp only [if_neg hx] at hu
        exact h id u hu

theorem pob_out_mono (env : FsEnv)
    (db : Bool → List String → Except Unit (List (String × String)))
    (t : Nat) (uc : Bool) (b : List String) (acc : FetchAcc) (id : String)
    (h : (acc.outMap id).isSome = true) :
    ((processOneBatch env db t uc b acc).outMap id).isSome = true := by
  unfold processOneBatch
  split
  · exact h
  · exact abr_out_mono env t _ b acc id h

theorem pob_covers (env : FsEnv)
    (db : Bool → List String → Except Unit (List (String × String)))
    (t : Nat) (uc : Bool) (b : List String) (acc : FetchAcc) (id : String)
    (h : (acc.outMap id).isSome = true ∨ id ∈ acc.remaining) :
    ((processOneBatch env db t uc b acc).outMap id).isSome = true
      ∨ id ∈ (processOneBatch env db t uc b acc).remaining := by
  unfold processOneBatch
  split
  · exact h
  · exact abr_covers env t _ b acc id h

theorem pob_values (env : FsEnv)
    (db : Bool → List String → Except Unit (List (String × String)))
    (t : Nat) (uc : Bool) (b : List String) (acc : FetchAcc)
    (h : ∀ id u, acc.outMap id = some u → u ≠ "") :
    ∀ id u, (processOneBatch env db t uc b acc).outMap id = some u → u ≠ "" := by
  unfold processOneBatch
  split
  · exact h
  · exact abr_values env t _ b acc h

theorem pcs_out_mono (env : FsEnv)
    (db : Bool → List String → Except Unit (List (String × String)))
    (t : Nat) (uc : Bool) (bs : List (List String)) (acc : FetchAcc) (id : String)
    (h : (acc.outMap id).isSome = true) :
    ((processChunks env db t uc bs acc).outMap id).isSome = true := by
  induction bs generalizing acc with
  | nil => exact h
  | cons b rest ih =>
    unfold processChunks
    exact ih _ (pob_out_mono env db t uc b acc id h)

theorem pcs_covers (env : FsEnv)
    (db : Bool → List String → Except Unit (List (String × String)))
    (t : Nat) (uc : Bool) (bs : List (List String)) (acc : FetchAcc) (id : String)
    (h : (acc.outMap id).isSome = true ∨ id ∈ acc.remaining) :
    ((processChunks env db t uc bs acc).outMap id).isSome = true
      ∨ id ∈ (processChunks env db t uc bs acc).remaining := by
  induction bs generalizing acc with
  | nil => exact h
  | cons b rest ih =>
    unfold processChunks
    exact ih _ (pob_covers env db t uc b acc id h)

theorem pcs_values (env : FsEnv)
    (db : Bool → List String → Except Unit (List (String × String)))
    (t : Nat) (uc : Bool) (bs : List (List String)) (acc : FetchAcc)
    (h : ∀ id u, acc.outMap id = some u → u ≠ "") :
    ∀ id u, (processChunks env db t uc bs acc).outMap id = some u → u ≠ "" := by
  induction bs generalizing acc with
  | nil => exact h
  | cons b rest ih =>
    unfold processChunks
    exact ih _ (pob_values env db t uc b acc h)

theorem fp_covers (env : FsEnv)
    (db : Bool → List String → Except Unit (List (String × String)))
    (t : Nat) (order : List Bool) (acc : FetchAcc) (id : String)
    (h : (acc.outMap id).isSome = true ∨ id ∈ acc.remaining) :
    ((fetchPhase env db t order acc).outMap id).isSome = true
      ∨ id ∈ (fetchPhase env db t order acc).remaining := by
  induction order generalizing acc with
  | nil => exact h
  | cons uc rest ih =>
    unfold fetchPhase
    split
    · exact h
    · exact ih _ (pcs_covers env db t uc _ acc id h)

theorem fp_values (env : FsEnv)
    (db : Bool → List String → Except Unit (List (String × String)))
    (t : Nat) (order : List Bool) (acc : FetchAcc)
    (h : ∀ id u, acc.outMap id = some u → u ≠ "") :
    ∀ id u, (fetchPhase env db t order acc).outMap id = some u → u ≠ "" := by
  induction order generalizing acc with
  | nil => exact h
  | cons uc rest ih =>
    unfold fetchPhase
    split
    · exact h
    · exact ih _ (pcs_values env db t uc _ acc h)

theorem afb_out_mono (env : FsEnv) (t : Nat) (l : List String) (acc : FetchAcc)
    (id : String) (h : (acc.outMap id).isSome = true) :
    ((applyFallback env t l acc).outMap id).isSome = true := by
  induction l generalizing acc with
  | nil => exact h
  | cons x rest ih =>
    unfold applyFallback
    apply ih
    by_cases hx : id = x <;> simp [hx, h]

theorem afb_covers_mem (env : FsEnv) (t : Nat) (l : List String) (acc : FetchAcc)
    (id : String) (hid : id ∈ l) :
    ((applyFallback env t l acc).outMap id).isSome = true := by
  induction l generalizing acc with
  | nil => cases hid
  | cons x rest ih =>
    unfold applyFallback
    rcases List.mem_cons.mp hid with rfl | hrest
    · apply afb_out_mono
      simp
    · exact ih _ hrest

theorem afb_values (env : FsEnv) (t : Nat) (l : List String) (acc : FetchAcc)
    (h : ∀ id u, acc.outMap id = some u → u ≠ "") :
    ∀ id u, (applyFallback env t l acc).outMap id = some u → u ≠ "" := by
  induction l generalizing acc with
  | nil => exact h
  | cons x rest ih =>
    unfold applyFallback
    apply ih
    intro id u hu
    by_cases hx : id = x
    · rw [hx] at hu
      simp only [if_pos rfl] at hu
      injection hu with h2
      rw [← h2]
      exact sanitizeFotoPath_ne_empty env _
    · simp only [if_neg hx] at hu
      exact h id u hu

theorem mem_setDedup (l seen : List String) (a : String) :
    a ∈ setDedup l seen ↔ a ∈ l ∧ a ∉ seen := by
  induction l generalizing seen with
  | nil => simp [setDedup]
  | cons x xs ih =>
    unfold setDedup
    by_cases hx : seen.contains x = true
    · rw [if_pos hx, ih]
      have hxm : x ∈ seen := (StatusController.contains_true_iff seen x).mp hx
      constructor
      · rintro ⟨h1, h2⟩
        exact ⟨List.mem_cons.mpr (Or.inr h1), h2⟩
      · rintro ⟨h1, h2⟩
        rcases List.mem_cons.mp h1 with rfl | h3
        · exact absurd hxm h2
        · exact ⟨h3, h2⟩
    · rw [if_neg hx]
      have hxm : x ∉ seen := fun hm => hx ((StatusController.contains_true_iff seen x).mpr hm)
      constructor
      · intro h1
        rcases List.mem_cons.mp h1 with rfl | h3
        · exact ⟨List.mem_cons.mpr (Or.inl rfl), hxm⟩
        · rcases (ih (x :: seen)).mp h3 with ⟨h4, h5⟩
          refine ⟨List.mem_cons.mpr (Or.inr h4), fun hm => h5 (List.mem_cons.mpr (Or.inr hm))⟩
      · rintro ⟨h1, h2⟩
        rcases List.mem_cons.mp h1 with rfl | h3
        · exact List.mem_cons.mpr (Or.inl rfl)
        · by_cases hax : a = x
          · exact List.mem_cons.mpr (Or.inl hax)
          · refine List.mem_cons.mpr (Or.inr ((ih (x :: seen)).mpr ⟨h3, ?_⟩))
            intro hm
            rcases List.mem_cons.mp hm with h5 | h5
            · exact hax h5
            · exact h2 h5

theorem mem_jsSetOf (l : List String) (a : String) : a ∈ jsSetOf l ↔ a ∈ l := by
  unfold jsSetOf
  rw [mem_setDedup]
  simp

theorem fetchRest_covers (env : FsEnv)
    (db : Bool → List String → Except Unit (List (String × String)))
    (t : Nat) (pc : Bool) (step1 : FetchAcc) (id : String)
    (hcov : (step1.outMap id).isSome = true ∨ id ∈ step1.remaining)
    (hvals : ∀ id u, step1.outMap id = some u → u ≠ "") :
    ∃ u, (fetchRest env db t pc step1).1 id = some u ∧ u ≠ "" := by
  unfold fetchRest
  split
  next hemp =>
    rcases hcov with hout | hrem
    · match hu : step1.outMap id with
      | some u => exact ⟨u, hu, hvals id u hu⟩
      | none => rw [hu] at hout; cases hout
    · rw [List.isEmpty_iff] at hemp
      rw [hemp] at hrem
      cases hrem
  next hemp =>
    dsimp only
    have hcov0 : ((fetchPhase env db t (if pc then [true, false] else [false, true])
        { outMap := step1.outMap, cache := step1.cache
          remaining := jsSetOf step1.remaining }).outMap id).isSome = true
        ∨ id ∈ (fetchPhase env db t (if pc then [true, false] else [false, true])
            { outMap := step1.outMap, cache := step1.cache
              remaining := jsSetOf step1.remaining }).remaining := by
      apply fp_covers
      rcases hcov with hout | hrem
      · exact Or.inl hout
      · right
        exact (mem_jsSetOf step1.remaining id).mpr hrem
    have hval1 := fp_values env db t (if pc then [true, false] else [false, true])
      { outMap := step1.outMap, cache := step1.cache
        remaining := jsSetOf step1.remaining } hvals
    have hsome : ((applyFallback env t
        (fetchPhase env db t (if pc then [true, false] else [false, true])
          { outMap := step1.outMap, cache := step1.cache
            remaining := jsSetOf step1.remaining }).remaining
        (fetchPhase env db t (if pc then [true, false] else [false, true])
          { outMap := step1.outMap, cache := step1.cache
            remaining := jsSetOf step1.remaining })).outMap id).isSome = true := by
      rcases hcov0 with hout | hrem
      · exact afb_out_mono env t _ _ id hout
      · exact afb_covers_mem env t _ _ id hrem
    have hval2 := afb_values env t
      (fetchPhase env db t (if pc then [true, false] else [false, true])
        { outMap := step1.outMap, cache := step1.cache
          remaining := jsSetOf step1.remaining }).remaining
      (fetchPhase env db t (if pc then [true, false] else [false, true])
        { outMap := step1.outMap, cache := step1.cache
          remaining := jsSetOf step1.remaining }) hval1
    match hu : (applyFallback env t
        (fetchPhase env db t (if pc then [true, false] else [false, true])
          { outMap := step1.outMap, cache := step1.cache
            remaining := jsSetOf step1.remaining }).remaining
        (fetchPhase env db t (if pc then [true, false] else [false, true])
          { outMap := step1.outMap, cache := step1.cache
            remaining := jsSetOf step1.remaining })).outMap id with
    | some u => exact ⟨u, rfl, hval2 id u hu⟩
    | none => rw [hu] at hsome; cases hsome

end FotoService

namespace FotoService

theorem consult_empty_cache (env : FsEnv) (uc : Bool) (t : Nat) (ids : List String)
    (acc : FetchAcc) (hc : ∀ k, acc.cache k = none) :
    consultCache env uc t ids acc = { acc with remaining := acc.remaining ++ ids } := by
  induction ids generalizing acc with
  | nil => simp [consultCache]
  | cons x rest ih =>
    unfold consultCache
    rw [hc x]
    cases uc
    · dsimp only
      rw [ih { acc with remaining := acc.remaining ++ [x] } hc]
      simp [List.append_assoc]
    · dsimp only
      rw [ih { acc with remaining := acc.remaining ++ [x] } hc]
      simp [List.append_assoc]

theorem pob_id_of_dbfail (env : FsEnv)
    (db : Bool → List String → Except Unit (List (String × String)))
    (t : Nat) (uc : Bool) (b : List String) (acc : FetchAcc)
    (hdb : ∀ b2 l, db b2 l = Except.error ()) :
    processOneBatch env db t uc b acc = acc := by
  unfold processOneBatch
  rw [hdb uc b]

theorem pcs_id_of_dbfail (env : FsEnv)
    (db : Bool → List String → Except Unit (List (String × String)))
    (t : Nat) (uc : Bool) (bs : List (List String)) (acc : FetchAcc)
    (hdb : ∀ b2 l, db b2 l = Except.error ()) :
    processChunks env db t uc bs acc = acc := by
  induction bs generalizing acc with
  | nil => rfl
  | cons b rest ih =>
    unfold processChunks
    rw [pob_id_of_dbfail env db t uc b acc hdb]
    exact ih acc

theorem fp_id_of_dbfail (env : FsEnv)
    (db : Bool → List String → Except Unit (List (String × String)))
    (t : Nat) (order : List Bool) (acc : FetchAcc)
    (hdb : ∀ b2 l, db b2 l = Except.error ()) :
    fetchPhase env db t order acc = acc := by
  induction order generalizing acc with
  | nil => rfl
  | cons uc rest ih =>
    unfold fetchPhase
    split
    · rfl
    · rw [pcs_id_of_dbfail env db t uc _ acc hdb]
      exact ih acc

theorem afb_preserve (env : FsEnv) (t : Nat) (l : List String) (acc : FetchAcc)
    (id : String) (w : String) (hw : acc.outMap id = some w) (hnl : id ∉ l) :
    (applyFallback env t l acc).outMap id = some w := by
  induction l generalizing acc with
  | nil => exact hw
  | cons x rest ih =>
    unfold applyFallback
    have hx : id ≠ x := fun h => hnl (List.mem_cons.mpr (Or.inl h))
    have hrest : id ∉ rest := fun h => hnl (List.mem_cons.mpr (Or.inr h))
    apply ih _ _ hrest
    simp only [if_neg hx]
    exact hw

theorem afb_default (env : FsEnv) (t : Nat) (l : List String) (acc : FetchAcc)
    (id : String) (hid : id ∈ l) :
    (applyFallback env t l acc).outMap id = some (sanitizeFotoPath env "") := by
  induction l generalizing acc with
  | nil => cases hid
  | cons x rest ih =>
    unfold applyFallback
    by_cases hr : id ∈ rest
    · exact ih _ hr
    · have hx : id = x := by
        rcases List.mem_cons.mp hid with h | h
        · exact h
        · exact absurd h hr
      apply afb_preserve _ _ _ _ _ _ _ hr
      rw [hx]
      simp

/-- C9.  Photo-map totality: for every list of requested ids,
`fetchFotosMap` returns a map with an entry for every requested id, and
every stored entry is a non-empty URL string; in particular when no cache
record exists and every DB lookup fails (both sources, every batch), every
requested id maps to the sanitized default placeholder URL
`sanitizeFotoPath('')`. -/
theorem c9_foto_map_total (env : FsEnv)
    (db : Bool → List String → Except Unit (List (String × String)))
    (t : Nat) (ids : List String) (useCache preferCloud : Bool)
    (cache0 : String → Option FotoCacheRec) :
    (∀ id ∈ ids, ∃ u,
        (fetchFotosMap env db t ids useCache preferCloud cache0).1 id = some u ∧ u ≠ "")
  ∧ ((∀ k, cache0 k = none) → (∀ b2 l, db b2 l = Except.error ()) →
      ∀ id ∈ ids, (fetchFotosMap env db t ids useCache preferCloud cache0).1 id
        = some (sanitizeFotoPath env "")) := by
  constructor
  · intro id hid
    unfold fetchFotosMap
    apply fetchRest_covers
    · exact consult_covers env useCache t ids _ id hid
    · apply consult_values
      intro id2 u hu
      simp at hu
  · intro hc hdb id hid
    unfold fetchFotosMap
    rw [consult_empty_cache env useCache t ids _ hc]
    unfold fetchRest
    split
    next hemp =>
      rw [List.isEmpty_iff] at hemp
      simp only [List.nil_append] at hemp
      rw [hemp] at hid
      cases hid
    next hemp =>
      dsimp only
      rw [fp_id_of_dbfail env db t _ _ hdb]
      apply afb_default
      rw [mem_jsSetOf]
      simpa using hid

/-- Witness for C9: a single id against an empty cache and a DB that always
fails resolves to the default placeholder URL (a non-empty string). -/
theorem c9_foto_map_total_witness :
    (∃ u, (fetchFotosMap
        { appBase := "http://localhost:8003", publicDir := none
          existsFs := fun _ => false, parsesAsUrl := fun _ => false }
        (fun _ _ => Except.error ()) 0 ["7"] true true (fun _ => none)).1 "7"
          = some u ∧ u ≠ "")
  ∧ ((fetchFotosMap
        { appBase := "http://localhost:8003", publicDir := none
          existsFs := fun _ => false, parsesAsUrl := fun _ => false }
        (fun _ _ => Except.error ()) 0 ["7"] true true (fun _ => none)).1 "7"
      = some (sanitizeFotoPath
          { appBase := "http://localhost:8003", publicDir := none
            existsFs := fun _ => false, parsesAsUrl := fun _ => false } "")) :=
  ⟨(c9_foto_map_total
      { appBase := "http://localhost:8003", publicDir := none
        existsFs := fun _ => false, parsesAsUrl := fun _ => false }
      (fun _ _ => Except.error ()) 0 ["7"] true true (fun _ => none)).1 "7" (by simp),
   (c9_foto_map_total
      { appBase := "http://localhost:8003", publicDir := none
        existsFs := fun _ => false, parsesAsUrl := fun _ => false }
      (fun _ _ => Except.error ()) 0 ["7"] true true (fun _ => none)).2
      (fun _ => rfl) (fun _ _ => rfl) "7" (by simp)⟩

end FotoService
